import Mathlib

/-!
Verification development for the korp orphan-resource operator.

The definitions below are shallow embeddings of the Go sources:
`pkg/cleanup/cleaner.go`, `pkg/notifier` (webhook), `pkg/k8s/k8s.go`,
`pkg/scan/scanner.go` and the KorpScan reconciler. Machine integers are
modelled as Int (with explicit 64-bit wraparound where Go overflow can
matter), timestamps as Unix seconds, and calls against the cluster API
as explicit oracle functions recorded in an environment structure, so
that cluster interactions (Get / List / Delete outcomes) become data.
-/

namespace Korp

/-- A single orphan observation (api/v1alpha1 Finding). DetectedAt is the
detection timestamp in Unix seconds; Separator and Description are the
cosmetic fields the scanner fills in. -/
structure Finding where
  Separator : String := ""
  Description : String := ""
  ResourceType : String
  Name : String
  Namespace : String
  Reason : String
  DetectedAt : Int
  deriving Repr, DecidableEq

/-- CleanupSpec from api/v1alpha1/korpscan_types.go. DryRun is a *bool in
Go; the nil pointer is modelled as none. -/
structure CleanupSpec where
  Enabled : Bool
  DryRun : Option Bool
  ResourceTypes : List String
  MinAgeDays : Int
  PreservationLabels : List String
  deriving Repr, DecidableEq

/-- IsDryRun from korpscan_types.go: a nil DryRun pointer is read as true. -/
def CleanupSpec.IsDryRun (c : CleanupSpec) : Bool :=
  match c.DryRun with
  | none => true
  | some b => b

/-- CleanupSummary counters (api/v1alpha1). -/
structure CleanupSummary where
  TotalEligible : Nat
  TotalDeleted : Nat
  TotalFailed : Nat
  TotalSkippedPreserved : Nat
  TotalSkippedAge : Nat
  DryRun : Bool
  deriving Repr, DecidableEq

/-- DeletedResource record (api/v1alpha1); DeletedAt in Unix seconds. -/
structure DeletedResource where
  ResourceType : String
  Namespace : String
  Name : String
  DeletedAt : Int
  deriving Repr, DecidableEq

/-- FailedDeletion record (api/v1alpha1). -/
structure FailedDeletion where
  ResourceType : String
  Namespace : String
  Name : String
  Error : String
  deriving Repr, DecidableEq

/-- The fixed kind mapping of isResourceTypeAllowed in cleaner.go. The
switch statements of getResourceLabels and deleteResource cover exactly
these twelve kinds and hit their default (error) branch otherwise. -/
def typeMapping (resourceType : String) : Option String :=
  match resourceType with
  | "ConfigMap" => some "configmaps"
  | "Secret" => some "secrets"
  | "PersistentVolumeClaim" => some "pvcs"
  | "Service" => some "services"
  | "Deployment" => some "deployments"
  | "StatefulSet" => some "statefulsets"
  | "DaemonSet" => some "daemonsets"
  | "Job" => some "jobs"
  | "CronJob" => some "cronjobs"
  | "ReplicaSet" => some "replicasets"
  | "ServiceAccount" => some "serviceaccounts"
  | "Ingress" => some "ingresses"
  | _ => none

/-- isResourceTypeAllowed from cleaner.go: translate the kind through
typeMapping and look it up in the allow-list (a set in Go, membership
here). Unmapped kinds are never allowed. -/
def isResourceTypeAllowed (resourceType : String) (allowedTypes : List String) : Bool :=
  match typeMapping resourceType with
  | none => false
  | some specType => allowedTypes.contains specType

/-- Cluster-interaction oracle for the cleanup engine.
resourceLabels is the outcome of the Get call behind getResourceLabels
(none = the Get failed; some keys = label keys of the live object);
deleteErr is the outcome of the Delete call for mapped kinds (none =
success); now is the wall clock (time.Now) in Unix seconds. -/
structure CleanupEnv where
  resourceLabels : Finding → Option (List String)
  deleteErr : Finding → Option String
  now : Int

/-- getResourceLabels from cleaner.go: for the twelve mapped kinds it
issues a Get and returns the labels or the Get error; for any other kind
it returns an unsupported-kind error. Both error shapes are none here. -/
def getResourceLabels (env : CleanupEnv) (f : Finding) : Option (List String) :=
  match typeMapping f.ResourceType with
  | some _ => env.resourceLabels f
  | none => none

/-- hasPreservationLabel from cleaner.go: empty key set means not
preserved; a label-lookup failure is treated as not preserved; otherwise
preserved iff any configured key is present on the live object. -/
def hasPreservationLabel (env : CleanupEnv) (f : Finding) (preservationLabels : List String) : Bool :=
  if preservationLabels = [] then false
  else
    match getResourceLabels env f with
    | none => false
    | some labelKeys => preservationLabels.any (fun k => labelKeys.contains k)

/-- The minimum-age threshold of Clean, in seconds: MinAgeDays days, or
7 days when MinAgeDays is zero. -/
def minAgeSeconds (spec : CleanupSpec) : Int :=
  if spec.MinAgeDays = 0 then 7 * 24 * 3600 else spec.MinAgeDays * 24 * 3600

/-- deleteResource from cleaner.go. The Bool records whether a Delete
call was issued against the cluster: for the twelve mapped kinds the
switch issues the call and returns its outcome; for any other kind the
default branch returns an unsupported-kind error without any call. -/
def deleteResource (env : CleanupEnv) (f : Finding) : Bool × Option String :=
  match typeMapping f.ResourceType with
  | some _ => (true, env.deleteErr f)
  | none => (false, some ("unsupported resource type for deletion: " ++ f.ResourceType))

/-- CleanupResult from cleaner.go, extended with the trace of Delete
calls actually issued against the cluster. -/
structure CleanupResult where
  summary : CleanupSummary
  deletedResources : List DeletedResource
  failedDeletions : List FailedDeletion
  deleteCalls : List Finding
  deriving Repr, DecidableEq

/-- One iteration of the findings loop in Clean (cleaner.go): allow-list
gate, eligible counter, age gate, preservation gate, then dry-run or
live deletion with per-item outcome recording. -/
def cleanStep (env : CleanupEnv) (spec : CleanupSpec) (st : CleanupResult) (f : Finding) : CleanupResult :=
  if spec.ResourceTypes ≠ [] ∧ ¬ isResourceTypeAllowed f.ResourceType spec.ResourceTypes then st
  else
    let st := { st with summary := { st.summary with TotalEligible := st.summary.TotalEligible + 1 } }
    if env.now - f.DetectedAt < minAgeSeconds spec then
      { st with summary := { st.summary with TotalSkippedAge := st.summary.TotalSkippedAge + 1 } }
    else if hasPreservationLabel env f spec.PreservationLabels then
      { st with summary := { st.summary with TotalSkippedPreserved := st.summary.TotalSkippedPreserved + 1 } }
    else if spec.IsDryRun then
      { st with
        summary := { st.summary with TotalDeleted := st.summary.TotalDeleted + 1 },
        deletedResources := st.deletedResources ++
          [{ ResourceType := f.ResourceType, Namespace := f.Namespace, Name := f.Name, DeletedAt := env.now }] }
    else
      match deleteResource env f with
      | (issued, some e) =>
        { st with
          summary := { st.summary with TotalFailed := st.summary.TotalFailed + 1 },
          failedDeletions := st.failedDeletions ++
            [{ ResourceType := f.ResourceType, Namespace := f.Namespace, Name := f.Name, Error := e }],
          deleteCalls := if issued then st.deleteCalls ++ [f] else st.deleteCalls }
      | (issued, none) =>
        { st with
          summary := { st.summary with TotalDeleted := st.summary.TotalDeleted + 1 },
          deletedResources := st.deletedResources ++
            [{ ResourceType := f.ResourceType, Namespace := f.Namespace, Name := f.Name, DeletedAt := env.now }],
          deleteCalls := if issued then st.deleteCalls ++ [f] else st.deleteCalls }

/-- The zero-valued CleanupResult Clean starts from, with the DryRun flag
already resolved via IsDryRun. -/
def cleanBase (spec : CleanupSpec) : CleanupResult :=
  { summary :=
      { TotalEligible := 0, TotalDeleted := 0, TotalFailed := 0,
        TotalSkippedPreserved := 0, TotalSkippedAge := 0, DryRun := spec.IsDryRun },
    deletedResources := [], failedDeletions := [], deleteCalls := [] }

/-- Clean from cleaner.go: return the zero result when cleanup is
disabled, otherwise fold the findings loop. -/
def Clean (env : CleanupEnv) (findings : List Finding) (spec : CleanupSpec) : CleanupResult :=
  if ¬ spec.Enabled then cleanBase spec
  else findings.foldl (cleanStep env spec) (cleanBase spec)

/-! ### Webhook notifier (pkg/notifier, src/unnamed/part_005) -/

/-- RetryPolicy from api/v1alpha1/korpscan_types.go. -/
structure RetryPolicy where
  MaxRetries : Int
  InitialDelaySeconds : Int
  deriving Repr, DecidableEq

/-- WebhookConfig from api/v1alpha1/korpscan_types.go (the transport
fields Headers / TimeoutSeconds / InsecureSkipVerify only shape the
HTTP client and are omitted from this model). -/
structure WebhookConfig where
  URL : String
  Method : String
  RetryPolicy : Option RetryPolicy
  deriving Repr, DecidableEq

/-- Two-sided complement wraparound to a signed 64-bit value, the
semantics of Go int arithmetic on amd64. -/
def int64wrap (n : Int) : Int :=
  (n + 2 ^ 63) % 2 ^ 64 - 2 ^ 63

/-- The Go expression 1 << s on a 64-bit int: shifts of 64 or more bits
produce 0, and bit 63 is the sign bit. -/
def goShlOne (s : Nat) : Int :=
  int64wrap (2 ^ s)

/-- The backoff delay, in seconds, computed before retry attempt
number attempt in Send: initialDelay * (1 << (attempt - 1)) with Go
64-bit int arithmetic. The subsequent conversion to time.Duration only
changes the unit to nanoseconds. -/
def backoffDelaySeconds (initialDelay : Int) (attempt : Nat) : Int :=
  int64wrap (initialDelay * goShlOne (attempt - 1))

/-- The retry count Send resolves: the configured MaxRetries when a
retry policy is present with MaxRetries >= 0, else the default 3. -/
def effectiveMaxRetries (cfg : WebhookConfig) : Int :=
  match cfg.RetryPolicy with
  | some p => if p.MaxRetries ≥ 0 then p.MaxRetries else 3
  | none => 3

/-- The initial backoff delay Send resolves: the configured
InitialDelaySeconds when positive, else the default 1 second. -/
def effectiveInitialDelay (cfg : WebhookConfig) : Int :=
  match cfg.RetryPolicy with
  | some p => if p.InitialDelaySeconds > 0 then p.InitialDelaySeconds else 1
  | none => 1

/-- Oracle for one Send invocation. attemptErr gives the outcome of the
sendOnce call for each attempt index (none = HTTP success); the
cancellation signal is modelled by cancelDuringWait, true when ctx.Done
fires during the backoff select preceding that attempt; ctxErr is the
text of ctx.Err. -/
structure WebhookEnv where
  attemptErr : Nat → Option String
  cancelDuringWait : Nat → Bool
  ctxErr : String

/-- How one Send invocation ended: delivered, aborted by cancellation
during a backoff wait, or all attempts exhausted (Send then wraps
lastErr into its webhook-failed error). -/
inductive SendOutcome where
  | success
  | cancelled (cause : String)
  | allFailed (lastErr : String)
  deriving Repr, DecidableEq

/-- Observable trace of one Send invocation: how many sendOnce calls
were made, which backoff waits completed (in seconds, in order), and
the outcome. -/
structure SendResult where
  calls : Nat
  waits : List Int
  outcome : SendOutcome
  deriving Repr, DecidableEq

/-- The retry loop of Send (part_005): fuel is the number of loop
iterations left (maxRetries + 1 - attempt). Before every attempt but
the first, the loop waits the exponential backoff delay unless the
cancellation signal fires first, in which case it returns at once. -/
def sendGo (env : WebhookEnv) (initialDelay : Int) (fuel attempt : Nat) (lastErr : String) : SendResult :=
  match fuel with
  | 0 => { calls := 0, waits := [], outcome := .allFailed lastErr }
  | Nat.succ fuel1 =>
    if 0 < attempt ∧ env.cancelDuringWait attempt = true then
      { calls := 0, waits := [],
        outcome := .cancelled ("context cancelled during retry backoff: " ++ env.ctxErr) }
    else
      let w : List Int := if 0 < attempt then [backoffDelaySeconds initialDelay attempt] else []
      match env.attemptErr attempt with
      | none => { calls := 1, waits := w, outcome := .success }
      | some e =>
        let rest := sendGo env initialDelay fuel1 (attempt + 1) e
        { calls := 1 + rest.calls, waits := w ++ rest.waits, outcome := rest.outcome }

/-- Send from part_005: resolve retry policy defaults and run the loop
for attempts 0 .. maxRetries. -/
def Send (env : WebhookEnv) (cfg : WebhookConfig) : SendResult :=
  sendGo env (effectiveInitialDelay cfg) ((effectiveMaxRetries cfg).toNat + 1) 0 ""

/-! ### Detection rules (pkg/k8s/k8s.go)

Projections of the corev1 object types onto exactly the fields these
rules consult. Addresses and owner references are opaque strings. -/

namespace K8s

/-- A Kubernetes Service (metadata only). -/
structure Service where
  Name : String
  Namespace : String
  deriving Repr, DecidableEq

/-- One subset of an Endpoints object. -/
structure EndpointSubset where
  Addresses : List String
  NotReadyAddresses : List String
  deriving Repr, DecidableEq

/-- An Endpoints object. -/
structure Endpoints where
  Subsets : List EndpointSubset
  deriving Repr, DecidableEq

/-- ServicesWithoutEndpoints from k8s.go: for every listed service, Get
its same-named Endpoints object (getEndpoints, none = the Get errored,
which the source treats as no endpoints) and report the service when
the object is absent or the ready plus not-ready address total over all
subsets is zero. -/
def ServicesWithoutEndpoints (services : List Service)
    (getEndpoints : String → String → Option Endpoints) : List String :=
  services.foldl
    (fun names svc =>
      match getEndpoints svc.Namespace svc.Name with
      | none => names ++ [svc.Name]
      | some ep =>
        let total := ep.Subsets.foldl
          (fun acc subset => acc + subset.Addresses.length + subset.NotReadyAddresses.length) 0
        if total = 0 then names ++ [svc.Name] else names)
    []

/-- A name reference inside a pod spec (configMapRef, configMapKeyRef,
projected configMap source, volume configMap source). -/
structure NameRef where
  Name : String
  deriving Repr, DecidableEq

/-- One source of a projected volume (only the configMap arm matters to
the ConfigMap rule). -/
structure ProjectedSource where
  ConfigMap : Option NameRef
  deriving Repr, DecidableEq

/-- A projected volume. -/
structure ProjectedVolumeSource where
  Sources : List ProjectedSource
  deriving Repr, DecidableEq

/-- A pod volume (configMap and projected arms only). -/
structure Volume where
  ConfigMap : Option NameRef
  Projected : Option ProjectedVolumeSource
  deriving Repr, DecidableEq

/-- The valueFrom arm of an env var (configMapKeyRef only). -/
structure EnvVarSource where
  ConfigMapKeyRef : Option NameRef
  deriving Repr, DecidableEq

/-- One env var of a container. -/
structure EnvVar where
  ValueFrom : Option EnvVarSource
  deriving Repr, DecidableEq

/-- One envFrom source of a container (configMapRef arm only). -/
structure EnvFromSource where
  ConfigMapRef : Option NameRef
  deriving Repr, DecidableEq

/-- A container, restricted to the env fields the rule inspects. -/
structure Container where
  Env : List EnvVar
  EnvFrom : List EnvFromSource
  deriving Repr, DecidableEq

/-- An ephemeral container; the source copies only Env and EnvFrom into
a plain Container before checking it. -/
structure EphemeralContainer where
  Env : List EnvVar
  EnvFrom : List EnvFromSource
  deriving Repr, DecidableEq

/-- A pod spec, restricted to the fields the ConfigMap rule consults. -/
structure PodSpec where
  Volumes : List Volume
  InitContainers : List Container
  Containers : List Container
  EphemeralContainers : List EphemeralContainer
  ServiceAccountName : String := ""
  deriving Repr, DecidableEq

/-- A pod. -/
structure Pod where
  Spec : PodSpec
  deriving Repr, DecidableEq

/-- A ConfigMap (name and owner references). -/
structure ConfigMap where
  Name : String
  OwnerReferences : List String
  deriving Repr, DecidableEq

/-- The Go pattern ref != nil && ref.Name == name. -/
def nameRefMatches (r : Option NameRef) (name : String) : Bool :=
  match r with
  | some ref => ref.Name == name
  | none => false

/-- The Go pattern vol.Projected != nil followed by the loop over its
sources checking source.ConfigMap. -/
def projectedMatchesConfigMap (p : Option ProjectedVolumeSource) (name : String) : Bool :=
  match p with
  | some proj => proj.Sources.any (fun src => nameRefMatches src.ConfigMap name)
  | none => false

/-- The Go pattern env.ValueFrom != nil && env.ValueFrom.ConfigMapKeyRef
!= nil && its Name == name. -/
def envVarMatchesConfigMap (ev : EnvVar) (name : String) : Bool :=
  match ev.ValueFrom with
  | some vf => nameRefMatches vf.ConfigMapKeyRef name
  | none => false

/-- isConfigMapUsedByPod from k8s.go: volumes (direct configMap source
and projected configMap sources), then envFrom configMapRef and env
valueFrom configMapKeyRef over init, regular and converted ephemeral
containers, in source order with early return modelled by any. -/
def isConfigMapUsedByPod (pod : Pod) (configMapName : String) : Bool :=
  (pod.Spec.Volumes.any (fun vol =>
      nameRefMatches vol.ConfigMap configMapName ||
      projectedMatchesConfigMap vol.Projected configMapName)) ||
  (let allContainers :=
      pod.Spec.InitContainers ++ pod.Spec.Containers ++
        pod.Spec.EphemeralContainers.map (fun ec => { Env := ec.Env, EnvFrom := ec.EnvFrom : Container })
   allContainers.any (fun container =>
      container.EnvFrom.any (fun envFrom => nameRefMatches envFrom.ConfigMapRef configMapName) ||
      container.Env.any (fun env => envVarMatchesConfigMap env configMapName)))

/-- OrphanConfigMaps from k8s.go over a namespace snapshot: skip maps
with owner references, skip maps used by some pod, report the rest. -/
def OrphanConfigMaps (cms : List ConfigMap) (pods : List Pod) : List String :=
  cms.foldl
    (fun names cm =>
      if cm.OwnerReferences.length > 0 then names
      else if pods.any (fun pod => isConfigMapUsedByPod pod cm.Name) then names
      else names ++ [cm.Name])
    []

end K8s

/-! Claim-side predicates for the detection rules, written from the
wording of the specification so the rule functions can be compared
against them. -/

/-- The condition the Service rule tests per service, as a Bool in the
shape of the source loop body: Endpoints Get failed or absent, or the
address total over all subsets is zero. -/
def svcNoEndpointsB (getEndpoints : String → String → Option K8s.Endpoints)
    (svc : K8s.Service) : Bool :=
  match getEndpoints svc.Namespace svc.Name with
  | none => true
  | some ep =>
    decide ((ep.Subsets.foldl
      (fun acc subset => acc + subset.Addresses.length + subset.NotReadyAddresses.length) 0) = 0)

/-- Spec wording: the same-named Endpoints object is missing, or exists
with a ready plus not-ready address sum of zero over all subsets. -/
def serviceHasNoEndpoints (getEndpoints : String → String → Option K8s.Endpoints)
    (svc : K8s.Service) : Prop :=
  getEndpoints svc.Namespace svc.Name = none ∨
    ∃ ep, getEndpoints svc.Namespace svc.Name = some ep ∧
      (ep.Subsets.map (fun s => s.Addresses.length + s.NotReadyAddresses.length)).sum = 0

/-- Spec wording: a container (given by its env and envFrom lists)
references the ConfigMap through envFrom configMapRef or env valueFrom
configMapKeyRef. -/
def containerRefsConfigMap (envList : List K8s.EnvVar) (envFromList : List K8s.EnvFromSource)
    (name : String) : Prop :=
  (∃ ef ∈ envFromList, ∃ r, ef.ConfigMapRef = some r ∧ r.Name = name) ∨
    (∃ ev ∈ envList, ∃ vf, ev.ValueFrom = some vf ∧ ∃ r, vf.ConfigMapKeyRef = some r ∧ r.Name = name)

/-- Spec wording: the pod references the ConfigMap via a volume
configMap source, a projected-volume configMap source, or env / envFrom
of an init, regular, or ephemeral container. -/
def podReferencesConfigMap (pod : K8s.Pod) (name : String) : Prop :=
  (∃ vol ∈ pod.Spec.Volumes, ∃ r, vol.ConfigMap = some r ∧ r.Name = name) ∨
    (∃ vol ∈ pod.Spec.Volumes, ∃ proj, vol.Projected = some proj ∧
      ∃ src ∈ proj.Sources, ∃ r, src.ConfigMap = some r ∧ r.Name = name) ∨
    (∃ c ∈ pod.Spec.InitContainers ++ pod.Spec.Containers,
      containerRefsConfigMap c.Env c.EnvFrom name) ∨
    (∃ ec ∈ pod.Spec.EphemeralContainers, containerRefsConfigMap ec.Env ec.EnvFrom name)

/-- The condition the ConfigMap rule tests per map, as a Bool in the
shape of the source loop body: no owner references and no pod uses it. -/
def cmOrphanB (pods : List K8s.Pod) (cm : K8s.ConfigMap) : Bool :=
  decide (cm.OwnerReferences.length = 0) &&
    !(pods.any (fun pod => K8s.isConfigMapUsedByPod pod cm.Name))

/-! ### Scan orchestrator (pkg/scan/scanner.go) -/

/-- ScanSummary from api/v1alpha1/korpscan_types.go; the Go zero value
is every counter zero. -/
structure ScanSummary where
  OrphanCount : Nat := 0
  TotalResources : Nat := 0
  OrphanedConfigMaps : Nat := 0
  OrphanedSecrets : Nat := 0
  OrphanedPVCs : Nat := 0
  ServicesWithoutEndpoints : Nat := 0
  OrphanedDeployments : Nat := 0
  OrphanedJobs : Nat := 0
  OrphanedIngresses : Nat := 0
  OrphanedStatefulSets : Nat := 0
  OrphanedDaemonSets : Nat := 0
  OrphanedCronJobs : Nat := 0
  OrphanedReplicaSets : Nat := 0
  OrphanedServiceAccounts : Nat := 0
  OrphanedRoles : Nat := 0
  OrphanedClusterRoles : Nat := 0
  OrphanedRoleBindings : Nat := 0
  OrphanedClusterRoleBindings : Nat := 0
  OrphanedNetworkPolicies : Nat := 0
  OrphanedPodDisruptionBudgets : Nat := 0
  OrphanedHPAs : Nat := 0
  OrphanedPVs : Nat := 0
  OrphanedEndpoints : Nat := 0
  OrphanedResourceQuotas : Nat := 0
  deriving Repr, DecidableEq

/-- TotalOrphans from korpscan_types.go: the sum of every per-kind
counter (OrphanCount and TotalResources are not summands). -/
def TotalOrphans (s : ScanSummary) : Nat :=
  s.OrphanedConfigMaps + s.OrphanedSecrets + s.OrphanedPVCs +
    s.ServicesWithoutEndpoints + s.OrphanedDeployments +
    s.OrphanedJobs + s.OrphanedIngresses +
    s.OrphanedStatefulSets + s.OrphanedDaemonSets +
    s.OrphanedCronJobs + s.OrphanedReplicaSets +
    s.OrphanedServiceAccounts + s.OrphanedRoles +
    s.OrphanedClusterRoles + s.OrphanedRoleBindings +
    s.OrphanedClusterRoleBindings + s.OrphanedNetworkPolicies +
    s.OrphanedPodDisruptionBudgets + s.OrphanedHPAs +
    s.OrphanedPVs + s.OrphanedEndpoints + s.OrphanedResourceQuotas

/-- FilterSpec from korpscan_types.go. -/
structure FilterSpec where
  ExcludeLabels : List (String × String) := []
  ExcludeNamePatterns : List String := []
  ExcludeNamespaces : List String := []
  deriving Repr, DecidableEq

/-- ReportingSpec from korpscan_types.go (the webhook configuration is
handled by the notifier model above). -/
structure ReportingSpec where
  CreateEvents : Bool := true
  EventSeverity : String := "Warning"
  HistoryLimit : Int := 0
  Webhook : Option WebhookConfig := none
  deriving Repr, DecidableEq

/-- KorpScanSpec from korpscan_types.go. -/
structure KorpScanSpec where
  TargetNamespace : String
  IntervalMinutes : Int := 0
  ResourceTypes : List String := []
  Filters : FilterSpec := {}
  Reporting : ReportingSpec := {}
  Cleanup : Option CleanupSpec := none
  deriving Repr, DecidableEq

/-- ScanResult from pkg/scan/types.go. -/
structure ScanResult where
  Summary : ScanSummary := {}
  Details : List Finding := []
  deriving Repr, DecidableEq

/-- Cluster oracle for one scan pass. listNamespaces is the namespace
List call; rule gives, per spec-level kind key and namespace, the name
list the corresponding pkg/k8s rule returns (error = any underlying
list or get failure inside that rule); clusterRule likewise for the two
cluster-scoped kinds; regexMatch is regexp.MatchString (none = the
pattern failed to compile). -/
structure ScanEnv where
  listNamespaces : Except String (List String)
  rule : String → String → Except String (List String)
  clusterRule : String → Except String (List String)
  regexMatch : String → String → Option Bool

/-- newFinding from scanner.go: fill the cosmetic separator and the
derived one-line description. -/
def newFinding (resourceType ns name reason : String) (detectedAt : Int) : Finding :=
  { Separator := "---",
    Description := resourceType ++ " " ++ ns ++ "/" ++ name ++ " (" ++ reason ++ ")",
    ResourceType := resourceType, Name := name, Namespace := ns,
    Reason := reason, DetectedAt := detectedAt }

/-- applyFilters from scanner.go: drop names matched by some exclusion
pattern; a pattern that fails to compile is skipped. -/
def applyFilters (env : ScanEnv) (names : List String) (filters : FilterSpec) : List String :=
  if filters.ExcludeNamePatterns = [] then names
  else
    names.filter (fun name =>
      !(filters.ExcludeNamePatterns.any (fun pattern =>
          match env.regexMatch pattern name with
          | none => false
          | some matched => matched)))

/-- The default kind list of Scan when spec.ResourceTypes is empty. -/
def defaultScanTypes : List String :=
  ["configmaps", "secrets", "pvcs", "services", "deployments", "jobs", "ingresses",
   "statefulsets", "daemonsets", "cronjobs", "replicasets", "serviceaccounts",
   "roles", "clusterroles", "rolebindings", "clusterrolebindings",
   "networkpolicies", "poddisruptionbudgets", "hpas"]

/-- The namespace-scoped kind keys the scanNamespace switch recognizes
(its 17 cases); any other key falls through the switch untouched. -/
def namespacedScanKinds : List String :=
  ["configmaps", "secrets", "pvcs", "services", "deployments", "jobs", "ingresses",
   "statefulsets", "daemonsets", "cronjobs", "replicasets", "serviceaccounts",
   "roles", "rolebindings", "networkpolicies", "poddisruptionbudgets", "hpas"]

/-- The cluster-scoped kind keys scanClusterScopedResources recognizes. -/
def clusterScanKinds : List String :=
  ["clusterroles", "clusterrolebindings"]

/-- The shared body of every per-kind scanX function in scanner.go: run
the rule, filter, bump the kind counter by the filtered count, append
one Finding per surviving name. setCounter performs the `+= count`
update of the kind counter inside the summary. -/
def scanKindStep (env : ScanEnv) (ns : String) (spec : KorpScanSpec) (result : ScanResult)
    (now : Int) (ruleKey resourceType reason : String)
    (setCounter : ScanSummary → Nat → ScanSummary) : Except String ScanResult :=
  match env.rule ruleKey ns with
  | .error e => .error e
  | .ok orphans =>
    let filtered := applyFilters env orphans spec.Filters
    .ok { Summary := setCounter result.Summary filtered.length,
          Details := result.Details ++
            filtered.map (fun name => newFinding resourceType ns name reason now) }

/-- scanNamespace from scanner.go: the switch over the requested kind
keys, each case one scanX call with its kind, reason code and summary
counter; unrecognized keys are ignored. -/
def scanNamespace (env : ScanEnv) (ns : String) (types : List String) (spec : KorpScanSpec)
    (result : ScanResult) (now : Int) : Except String ScanResult :=
  types.foldlM
    (fun acc rt =>
      match rt with
      | "configmaps" => scanKindStep env ns spec acc now "configmaps" "ConfigMap" "NoOwnerReference"
          (fun s n => { s with OrphanedConfigMaps := s.OrphanedConfigMaps + n })
      | "secrets" => scanKindStep env ns spec acc now "secrets" "Secret" "NoOwnerReference"
          (fun s n => { s with OrphanedSecrets := s.OrphanedSecrets + n })
      | "pvcs" => scanKindStep env ns spec acc now "pvcs" "PersistentVolumeClaim" "NoOwnerReference"
          (fun s n => { s with OrphanedPVCs := s.OrphanedPVCs + n })
      | "services" => scanKindStep env ns spec acc now "services" "Service" "NoEndpoints"
          (fun s n => { s with ServicesWithoutEndpoints := s.ServicesWithoutEndpoints + n })
      | "deployments" => scanKindStep env ns spec acc now "deployments" "Deployment" "ScaledToZero"
          (fun s n => { s with OrphanedDeployments := s.OrphanedDeployments + n })
      | "jobs" => scanKindStep env ns spec acc now "jobs" "Job" "CompletedOld"
          (fun s n => { s with OrphanedJobs := s.OrphanedJobs + n })
      | "ingresses" => scanKindStep env ns spec acc now "ingresses" "Ingress" "NoBackendService"
          (fun s n => { s with OrphanedIngresses := s.OrphanedIngresses + n })
      | "statefulsets" => scanKindStep env ns spec acc now "statefulsets" "StatefulSet" "ScaledToZeroOrNoReadyPods"
          (fun s n => { s with OrphanedStatefulSets := s.OrphanedStatefulSets + n })
      | "daemonsets" => scanKindStep env ns spec acc now "daemonsets" "DaemonSet" "NoScheduledPods"
          (fun s n => { s with OrphanedDaemonSets := s.OrphanedDaemonSets + n })
      | "cronjobs" => scanKindStep env ns spec acc now "cronjobs" "CronJob" "SuspendedNoRecentSuccess"
          (fun s n => { s with OrphanedCronJobs := s.OrphanedCronJobs + n })
      | "replicasets" => scanKindStep env ns spec acc now "replicasets" "ReplicaSet" "OrphanedNoOwner"
          (fun s n => { s with OrphanedReplicaSets := s.OrphanedReplicaSets + n })
      | "serviceaccounts" => scanKindStep env ns spec acc now "serviceaccounts" "ServiceAccount" "NotUsedByAnyPod"
          (fun s n => { s with OrphanedServiceAccounts := s.OrphanedServiceAccounts + n })
      | "roles" => scanKindStep env ns spec acc now "roles" "Role" "NotReferencedByBinding"
          (fun s n => { s with OrphanedRoles := s.OrphanedRoles + n })
      | "rolebindings" => scanKindStep env ns spec acc now "rolebindings" "RoleBinding" "ReferencesNonExistentRoleOrSubject"
          (fun s n => { s with OrphanedRoleBindings := s.OrphanedRoleBindings + n })
      | "networkpolicies" => scanKindStep env ns spec acc now "networkpolicies" "NetworkPolicy" "NoMatchingPods"
          (fun s n => { s with OrphanedNetworkPolicies := s.OrphanedNetworkPolicies + n })
      | "poddisruptionbudgets" => scanKindStep env ns spec acc now "poddisruptionbudgets" "PodDisruptionBudget" "NoMatchingPods"
          (fun s n => { s with OrphanedPodDisruptionBudgets := s.OrphanedPodDisruptionBudgets + n })
      | "hpas" => scanKindStep env ns spec acc now "hpas" "HorizontalPodAutoscaler" "TargetNotFound"
          (fun s n => { s with OrphanedHPAs := s.OrphanedHPAs + n })
      | _ => .ok acc)
    result

/-- The shared body of scanClusterRoles / scanClusterRoleBindings: like
scanKindStep but against the cluster-scoped rule with an empty
namespace on the findings. -/
def scanClusterKindStep (env : ScanEnv) (spec : KorpScanSpec) (result : ScanResult)
    (now : Int) (ruleKey resourceType reason : String)
    (setCounter : ScanSummary → Nat → ScanSummary) : Except String ScanResult :=
  match env.clusterRule ruleKey with
  | .error e => .error e
  | .ok orphans =>
    let filtered := applyFilters env orphans spec.Filters
    .ok { Summary := setCounter result.Summary filtered.length,
          Details := result.Details ++
            filtered.map (fun name => newFinding resourceType "" name reason now) }

/-- scanClusterScopedResources from scanner.go: evaluated once per
pass, only for the clusterroles / clusterrolebindings keys. -/
def scanClusterScopedResources (env : ScanEnv) (types : List String) (spec : KorpScanSpec)
    (result : ScanResult) (now : Int) : Except String ScanResult :=
  types.foldlM
    (fun acc rt =>
      match rt with
      | "clusterroles" => scanClusterKindStep env spec acc now "clusterroles" "ClusterRole" "NotReferencedByBinding"
          (fun s n => { s with OrphanedClusterRoles := s.OrphanedClusterRoles + n })
      | "clusterrolebindings" => scanClusterKindStep env spec acc now "clusterrolebindings" "ClusterRoleBinding" "ReferencesNonExistentRoleOrSubject"
          (fun s n => { s with OrphanedClusterRoleBindings := s.OrphanedClusterRoleBindings + n })
      | _ => .ok acc)
    result

/-- getNamespacesToScan from scanner.go: a single non-wildcard target
verbatim, otherwise the namespace List filtered by the exclusion set. -/
def getNamespacesToScan (env : ScanEnv) (spec : KorpScanSpec) : Except String (List String) :=
  if spec.TargetNamespace ≠ "*" then .ok [spec.TargetNamespace]
  else
    match env.listNamespaces with
    | .error e => .error e
    | .ok nsList => .ok (nsList.filter (fun n => !(spec.Filters.ExcludeNamespaces.contains n)))

/-- The kind list Scan resolves: the configured ResourceTypes, or the
default list when empty. -/
def effectiveScanTypes (spec : KorpScanSpec) : List String :=
  if spec.ResourceTypes = [] then defaultScanTypes else spec.ResourceTypes

/-- Scan from scanner.go: resolve the kind list (default when empty),
enumerate namespaces, scan each namespace for namespace-scoped kinds,
scan cluster-scoped kinds once, then set TotalResources to the finding
count. The first failing rule aborts the pass with its error. -/
def Scan (env : ScanEnv) (spec : KorpScanSpec) (now : Int) : Except String ScanResult :=
  match getNamespacesToScan env spec with
  | .error e => .error e
  | .ok namespacesToScan =>
    match namespacesToScan.foldlM
        (fun acc ns => scanNamespace env ns (effectiveScanTypes spec) spec acc now) {} with
    | .error e => .error e
    | .ok r1 =>
      match scanClusterScopedResources env (effectiveScanTypes spec) spec r1 now with
      | .error e => .error e
      | .ok r2 =>
        .ok { r2 with Summary := { r2.Summary with TotalResources := r2.Details.length } }

/-! ### Reconciliation loop (internal controller, src/unnamed/part_002)

The model keeps the status fields the claims speak about (phase, last
scan time, summary, findings, history); conditions, events, cleanup and
webhook status are side outputs of the same pass and are not modelled
here. Status updates against the API server are assumed to succeed. -/

/-- HistoryEntry from korpscan_types.go; ScanTime in Unix seconds. -/
structure HistoryEntry where
  ScanTime : Int
  OrphanCount : Nat
  Duration : String
  deriving Repr, DecidableEq

/-- The modelled subset of KorpScanStatus. -/
structure KorpScanStatus where
  LastScanTime : Option Int := none
  Phase : String := ""
  Summary : ScanSummary := {}
  Findings : List Finding := []
  History : List HistoryEntry := []
  deriving Repr, DecidableEq

/-- A KorpScan object (spec and status). -/
structure KorpScan where
  Spec : KorpScanSpec
  Status : KorpScanStatus := {}
  deriving Repr, DecidableEq

/-- What one Reconcile invocation returns: the object with its updated
status, the requested requeue delay in seconds, and the surfaced error. -/
structure ReconcileResult where
  korpScan : KorpScan
  requeueAfterSeconds : Int
  err : Option String
  deriving Repr, DecidableEq

/-- The scan interval Reconcile resolves, in seconds: IntervalMinutes
minutes, defaulting to 60 minutes when that is zero. -/
def effectiveIntervalSeconds (spec : KorpScanSpec) : Int :=
  let interval := spec.IntervalMinutes * 60
  if interval = 0 then 60 * 60 else interval

/-- The history retention limit Reconcile resolves: HistoryLimit, or 5
when it is zero. -/
def effectiveHistoryLimit (spec : KorpScanSpec) : Int :=
  if spec.Reporting.HistoryLimit = 0 then 5 else spec.Reporting.HistoryLimit

/-- The prepend-then-truncate history block of Reconcile: push the new
entry in front and cut back to the retention limit when the sequence
got longer than it. -/
def nextHistory (spec : KorpScanSpec) (old : List HistoryEntry) (entry : HistoryEntry) :
    List HistoryEntry :=
  let h0 := entry :: old
  if (h0.length : Int) > effectiveHistoryLimit spec then h0.take (effectiveHistoryLimit spec).toNat
  else h0

/-- Claim-side sum (spec wording): the arithmetic sum of all per-kind
counters of a ScanSummary. -/
def perKindCounterSum (s : ScanSummary) : Nat :=
  s.OrphanedConfigMaps + s.OrphanedSecrets + s.OrphanedPVCs +
    s.ServicesWithoutEndpoints + s.OrphanedDeployments +
    s.OrphanedJobs + s.OrphanedIngresses +
    s.OrphanedStatefulSets + s.OrphanedDaemonSets +
    s.OrphanedCronJobs + s.OrphanedReplicaSets +
    s.OrphanedServiceAccounts + s.OrphanedRoles +
    s.OrphanedClusterRoles + s.OrphanedRoleBindings +
    s.OrphanedClusterRoleBindings + s.OrphanedNetworkPolicies +
    s.OrphanedPodDisruptionBudgets + s.OrphanedHPAs +
    s.OrphanedPVs + s.OrphanedEndpoints + s.OrphanedResourceQuotas

/-- True when the interval since the last scan has elapsed (or no scan
has run yet), i.e. Reconcile proceeds past its cadence check. -/
def scanDue (ks : KorpScan) (now : Int) : Bool :=
  match ks.Status.LastScanTime with
  | none => true
  | some t => !(now < t + effectiveIntervalSeconds ks.Spec)

/-- The scan-and-publish tail of Reconcile, entered once the cadence
check has passed: set phase Running, scan; on failure set phase Failed
and requeue after the full interval surfacing the error; on success
replace summary (with OrphanCount recomputed via TotalOrphans) and
findings, stamp LastScanTime, prepend a HistoryEntry and truncate the
history to the retention limit, and requeue after the full interval. -/
def reconcileScan (env : ScanEnv) (ks : KorpScan) (now : Int) (duration : String)
    (interval : Int) : ReconcileResult :=
  let running : KorpScan := { ks with Status := { ks.Status with Phase := "Running" } }
  match Scan env ks.Spec now with
  | .error e =>
    { korpScan := { running with Status := { running.Status with Phase := "Failed" } },
      requeueAfterSeconds := interval, err := some e }
  | .ok result =>
    let totalOrphans := TotalOrphans result.Summary
    { korpScan :=
        { ks with Status :=
          { LastScanTime := some now,
            Phase := "Completed",
            Summary := { result.Summary with OrphanCount := totalOrphans },
            Findings := result.Details,
            History := nextHistory ks.Spec ks.Status.History
              { ScanTime := now, OrphanCount := totalOrphans, Duration := duration } } },
      requeueAfterSeconds := interval, err := none }

/-- Reconcile from the controller: resolve the interval, do nothing but
request a revisit when the scan is not due yet, otherwise run the
scan-and-publish tail. -/
def Reconcile (env : ScanEnv) (ks : KorpScan) (now : Int) (duration : String) : ReconcileResult :=
  let interval := effectiveIntervalSeconds ks.Spec
  match ks.Status.LastScanTime with
  | some t =>
    if now < t + interval then
      { korpScan := ks, requeueAfterSeconds := t + interval - now, err := none }
    else reconcileScan env ks now duration interval
  | none => reconcileScan env ks now duration interval

/-- One scheduled invocation of the reconciler: its cluster snapshot,
wall clock and measured scan duration. -/
structure PassInput where
  env : ScanEnv
  now : Int
  duration : String

/-- Fold a sequence of reconciler invocations over one KorpScan object. -/
def runReconciles (ks : KorpScan) : List PassInput → KorpScan
  | [] => ks
  | p :: ps => runReconciles (Reconcile p.env ks p.now p.duration).korpScan ps

/-- Every listed invocation is a completed pass: the scan is due when it
fires and the scan succeeds. -/
def passesComplete (ks : KorpScan) : List PassInput → Prop
  | [] => True
  | p :: ps =>
    scanDue ks p.now = true ∧ (Scan p.env ks.Spec p.now).isOk = true ∧
      passesComplete (Reconcile p.env ks p.now p.duration).korpScan ps

/-! ## Theorems -/

/-! ### Cleanup engine: bookkeeping lemmas -/

theorem cleanStep_partition (env : CleanupEnv) (spec : CleanupSpec) (st : CleanupResult) (f : Finding)
    (h : st.summary.TotalEligible =
      st.summary.TotalDeleted + st.summary.TotalFailed +
        st.summary.TotalSkippedPreserved + st.summary.TotalSkippedAge) :
    (cleanStep env spec st f).summary.TotalEligible =
      (cleanStep env spec st f).summary.TotalDeleted +
        (cleanStep env spec st f).summary.TotalFailed +
        (cleanStep env spec st f).summary.TotalSkippedPreserved +
        (cleanStep env spec st f).summary.TotalSkippedAge := by
  unfold cleanStep
  repeat' split
  all_goals simp_all
  all_goals omega

theorem foldl_cleanStep_partition (env : CleanupEnv) (spec : CleanupSpec) :
    ∀ (l : List Finding) (st : CleanupResult),
      st.summary.TotalEligible =
        st.summary.TotalDeleted + st.summary.TotalFailed +
          st.summary.TotalSkippedPreserved + st.summary.TotalSkippedAge →
      (l.foldl (cleanStep env spec) st).summary.TotalEligible =
        (l.foldl (cleanStep env spec) st).summary.TotalDeleted +
          (l.foldl (cleanStep env spec) st).summary.TotalFailed +
          (l.foldl (cleanStep env spec) st).summary.TotalSkippedPreserved +
          (l.foldl (cleanStep env spec) st).summary.TotalSkippedAge
  | [], _, h => h
  | f :: rest, st, h =>
    foldl_cleanStep_partition env spec rest (cleanStep env spec st f)
      (cleanStep_partition env spec st f h)

/-- C2: for every findings list and every enabled CleanupSpec, the
summary returned by Clean satisfies TotalEligible = TotalDeleted +
TotalFailed + TotalSkippedPreserved + TotalSkippedAge: each finding
passing the allow-list gate is counted eligible and lands in exactly one
outcome bucket. -/
theorem clean_eligible_partition (env : CleanupEnv) (spec : CleanupSpec) (findings : List Finding)
    (hEnabled : spec.Enabled = true) :
    (Clean env findings spec).summary.TotalEligible =
      (Clean env findings spec).summary.TotalDeleted +
        (Clean env findings spec).summary.TotalFailed +
        (Clean env findings spec).summary.TotalSkippedPreserved +
        (Clean env findings spec).summary.TotalSkippedAge := by
  unfold Clean
  rw [if_neg (by simp [hEnabled])]
  exact foldl_cleanStep_partition env spec findings (cleanBase spec) (by simp [cleanBase])

/-- Concrete cleanup oracle for witnesses: labels present, deletes
succeed, clock well past the age threshold. -/
def witCleanupEnv : CleanupEnv :=
  { resourceLabels := fun _ => some ["app"], deleteErr := fun _ => none, now := 1000000000 }

/-- Concrete enabled cleanup spec with unset DryRun for witnesses. -/
def witCleanupSpec : CleanupSpec :=
  { Enabled := true, DryRun := none, ResourceTypes := [], MinAgeDays := 0,
    PreservationLabels := [] }

/-- A concrete ConfigMap finding, old enough to clean. -/
def witConfigMapFinding : Finding :=
  { ResourceType := "ConfigMap", Name := "stale-cm", Namespace := "default",
    Reason := "NoOwnerReference", DetectedAt := 0 }

/-- A concrete Role finding: a kind outside the cleaner type mapping. -/
def witRoleFinding : Finding :=
  { ResourceType := "Role", Name := "stale-role", Namespace := "default",
    Reason := "NotReferencedByBinding", DetectedAt := 0 }

theorem clean_eligible_partition_witness :
    witCleanupSpec.Enabled = true ∧
    (Clean witCleanupEnv [witConfigMapFinding, witRoleFinding] witCleanupSpec).summary.TotalEligible =
      (Clean witCleanupEnv [witConfigMapFinding, witRoleFinding] witCleanupSpec).summary.TotalDeleted +
        (Clean witCleanupEnv [witConfigMapFinding, witRoleFinding] witCleanupSpec).summary.TotalFailed +
        (Clean witCleanupEnv [witConfigMapFinding, witRoleFinding] witCleanupSpec).summary.TotalSkippedPreserved +
        (Clean witCleanupEnv [witConfigMapFinding, witRoleFinding] witCleanupSpec).summary.TotalSkippedAge :=
  ⟨rfl, clean_eligible_partition witCleanupEnv witCleanupSpec [witConfigMapFinding, witRoleFinding] rfl⟩

/-! ### Cleanup engine: dry-run safety (C1) -/

theorem cleanStep_dryrun_noCalls (env : CleanupEnv) (spec : CleanupSpec) (st : CleanupResult)
    (f : Finding) (hdry : spec.IsDryRun = true) :
    (cleanStep env spec st f).deleteCalls = st.deleteCalls := by
  unfold cleanStep
  repeat' split
  all_goals simp_all

theorem foldl_cleanStep_dryrun_noCalls (env : CleanupEnv) (spec : CleanupSpec)
    (hdry : spec.IsDryRun = true) :
    ∀ (l : List Finding) (st : CleanupResult),
      (l.foldl (cleanStep env spec) st).deleteCalls = st.deleteCalls
  | [], _ => rfl
  | f :: rest, st => by
    rw [List.foldl_cons, foldl_cleanStep_dryrun_noCalls env spec hdry rest,
      cleanStep_dryrun_noCalls env spec st f hdry]

theorem cleanStep_dryrun_sim (env : CleanupEnv) (s1 s2 : CleanupSpec) (f : Finding)
    (hrt : s1.ResourceTypes = s2.ResourceTypes) (hma : s1.MinAgeDays = s2.MinAgeDays)
    (hpl : s1.PreservationLabels = s2.PreservationLabels)
    (hd1 : s1.IsDryRun = true) (hd2 : s2.IsDryRun = false)
    (hmap : (typeMapping f.ResourceType).isSome = true)
    (hok : env.deleteErr f = none) (st1 st2 : CleanupResult)
    (hdel : st1.summary.TotalDeleted = st2.summary.TotalDeleted)
    (hres : st1.deletedResources = st2.deletedResources) :
    (cleanStep env s1 st1 f).summary.TotalDeleted =
      (cleanStep env s2 st2 f).summary.TotalDeleted ∧
    (cleanStep env s1 st1 f).deletedResources =
      (cleanStep env s2 st2 f).deletedResources := by
  obtain ⟨en1, dr1, rt1, ma1, pl1⟩ := s1
  obtain ⟨en2, dr2, rt2, ma2, pl2⟩ := s2
  simp only [CleanupSpec.IsDryRun] at hd1 hd2
  simp only at hrt hma hpl
  subst hrt hma hpl
  obtain ⟨tm, htm⟩ := Option.isSome_iff_exists.mp hmap
  unfold cleanStep
  simp only [minAgeSeconds, hasPreservationLabel, getResourceLabels, isResourceTypeAllowed,
    CleanupSpec.IsDryRun, hd1, hd2, deleteResource, htm, hok]
  repeat' split
  all_goals simp_all

theorem foldl_cleanStep_dryrun_sim (env : CleanupEnv) (s1 s2 : CleanupSpec)
    (hrt : s1.ResourceTypes = s2.ResourceTypes) (hma : s1.MinAgeDays = s2.MinAgeDays)
    (hpl : s1.PreservationLabels = s2.PreservationLabels)
    (hd1 : s1.IsDryRun = true) (hd2 : s2.IsDryRun = false)
    (hok : ∀ g, env.deleteErr g = none) :
    ∀ (l : List Finding), (∀ f ∈ l, (typeMapping f.ResourceType).isSome = true) →
      ∀ (st1 st2 : CleanupResult),
        st1.summary.TotalDeleted = st2.summary.TotalDeleted →
        st1.deletedResources = st2.deletedResources →
        (l.foldl (cleanStep env s1) st1).summary.TotalDeleted =
          (l.foldl (cleanStep env s2) st2).summary.TotalDeleted ∧
        (l.foldl (cleanStep env s1) st1).deletedResources =
          (l.foldl (cleanStep env s2) st2).deletedResources
  | [], _, _, _, hdel, hres => ⟨hdel, hres⟩
  | f :: rest, hl, st1, st2, hdel, hres => by
    have hstep := cleanStep_dryrun_sim env s1 s2 f hrt hma hpl hd1 hd2
      (hl f (List.mem_cons_self f rest)) (hok f) st1 st2 hdel hres
    exact foldl_cleanStep_dryrun_sim env s1 s2 hrt hma hpl hd1 hd2 hok rest
      (fun g hg => hl g (List.mem_cons_of_mem f hg)) _ _ hstep.1 hstep.2

/-- C1 (amended): when CleanupSpec.DryRun is unset, the cleanup engine
interprets dry-run as true and, for every findings list, Clean issues no
delete call against the cluster; and for findings whose kinds lie in the
twelve-entry cleaner type mapping, under an environment in which every
issued deletion would succeed, TotalDeleted and DeletedResources are
populated exactly as a real deletion pass would populate them. -/
theorem clean_dryrun_unset_safe (spec : CleanupSpec) (hUnset : spec.DryRun = none) :
    (∀ (env : CleanupEnv) (findings : List Finding),
      (Clean env findings spec).deleteCalls = []) ∧
    (∀ (env : CleanupEnv) (findings : List Finding),
      (∀ f ∈ findings, (typeMapping f.ResourceType).isSome = true) →
      (∀ g, env.deleteErr g = none) →
      (Clean env findings spec).summary.TotalDeleted =
        (Clean env findings { spec with DryRun := some false }).summary.TotalDeleted ∧
      (Clean env findings spec).deletedResources =
        (Clean env findings { spec with DryRun := some false }).deletedResources) := by
  have hdry : spec.IsDryRun = true := by simp [CleanupSpec.IsDryRun, hUnset]
  constructor
  · intro env findings
    unfold Clean
    split
    · rfl
    · exact foldl_cleanStep_dryrun_noCalls env spec hdry findings (cleanBase spec)
  · intro env findings hmap hok
    unfold Clean
    split
    · exact ⟨rfl, rfl⟩
    · exact foldl_cleanStep_dryrun_sim env spec { spec with DryRun := some false }
        rfl rfl rfl hdry rfl hok findings hmap (cleanBase spec)
        (cleanBase { spec with DryRun := some false }) rfl rfl

theorem clean_dryrun_unset_safe_witness :
    witCleanupSpec.DryRun = none ∧
    (Clean witCleanupEnv [witConfigMapFinding] witCleanupSpec).deleteCalls = [] ∧
    (Clean witCleanupEnv [witConfigMapFinding] witCleanupSpec).summary.TotalDeleted =
      (Clean witCleanupEnv [witConfigMapFinding]
        { witCleanupSpec with DryRun := some false }).summary.TotalDeleted := by
  have h := clean_dryrun_unset_safe witCleanupSpec rfl
  exact ⟨rfl, h.1 witCleanupEnv [witConfigMapFinding],
    (h.2 witCleanupEnv [witConfigMapFinding]
      (by intro f hf; simp at hf; subst hf; rfl) (fun _ => rfl)).1⟩

/-- C1 counterexample: with DryRun unset and an environment in which
every issued delete succeeds, a Role finding (a kind outside the
cleaner type mapping, reachable through the Role detection rule) is
counted TotalDeleted = 1 by the dry-run pass while a real deletion pass
yields TotalDeleted = 0 (its deleteResource switch fails the kind
before any call), so the dry-run counters are not those of a real
deletion pass. -/
theorem clean_dryrun_unset_mismatch :
    witCleanupSpec.DryRun = none ∧
    (∀ f, witCleanupEnv.deleteErr f = none) ∧
    (Clean witCleanupEnv [witRoleFinding] witCleanupSpec).summary.TotalDeleted = 1 ∧
    (Clean witCleanupEnv [witRoleFinding]
      { witCleanupSpec with DryRun := some false }).summary.TotalDeleted = 0 ∧
    (Clean witCleanupEnv [witRoleFinding]
      { witCleanupSpec with DryRun := some false }).summary.TotalFailed = 1 :=
  ⟨rfl, fun _ => rfl, by decide, by decide, by decide⟩

/-! ### Cleanup engine: allow-list gate on unmapped kinds (C10) -/

theorem cleanStep_unmapped_skip (env : CleanupEnv) (spec : CleanupSpec) (st : CleanupResult)
    (f : Finding) (hne : spec.ResourceTypes ≠ [])
    (hun : typeMapping f.ResourceType = none) :
    cleanStep env spec st f = st := by
  unfold cleanStep
  rw [if_pos ⟨hne, by simp [isResourceTypeAllowed, hun]⟩]

theorem foldl_cleanStep_filter_mapped (env : CleanupEnv) (spec : CleanupSpec)
    (hne : spec.ResourceTypes ≠ []) :
    ∀ (l : List Finding) (st : CleanupResult),
      l.foldl (cleanStep env spec) st =
        (l.filter fun f => (typeMapping f.ResourceType).isSome).foldl (cleanStep env spec) st
  | [], _ => rfl
  | f :: rest, st => by
    by_cases h : (typeMapping f.ResourceType).isSome = true
    · rw [List.foldl_cons, List.filter_cons, if_pos h, List.foldl_cons]
      exact foldl_cleanStep_filter_mapped env spec hne rest (cleanStep env spec st f)
    · have hnone : typeMapping f.ResourceType = none := by
        cases htm : typeMapping f.ResourceType
        · rfl
        · rw [htm] at h; simp at h
      rw [List.foldl_cons, List.filter_cons, if_neg h,
        cleanStep_unmapped_skip env spec st f hne hnone]
      exact foldl_cleanStep_filter_mapped env spec hne rest st

/-- C10: with a non-empty allow-list, findings whose ResourceType lies
outside the fixed twelve-entry type mapping (Role, ClusterRole,
RoleBinding, ClusterRoleBinding, NetworkPolicy, PodDisruptionBudget,
HorizontalPodAutoscaler, ...) are dropped before the eligible counter,
whatever names the allow-list holds: Clean behaves as if they were
filtered out. With an empty allow-list every finding is counted
eligible, and one that also passes the age and preservation gates
reaches the deletion stage (it is recorded deleted or failed). -/
theorem clean_allowlist_unmapped_gate :
    (∀ (env : CleanupEnv) (spec : CleanupSpec) (findings : List Finding),
      spec.ResourceTypes ≠ [] →
      Clean env findings spec =
        Clean env (findings.filter fun f => (typeMapping f.ResourceType).isSome) spec) ∧
    (∀ (env : CleanupEnv) (spec : CleanupSpec) (st : CleanupResult) (f : Finding),
      spec.ResourceTypes = [] →
      (cleanStep env spec st f).summary.TotalEligible = st.summary.TotalEligible + 1) ∧
    (∀ (env : CleanupEnv) (spec : CleanupSpec) (st : CleanupResult) (f : Finding),
      spec.ResourceTypes = [] →
      ¬(env.now - f.DetectedAt < minAgeSeconds spec) →
      hasPreservationLabel env f spec.PreservationLabels = false →
      (cleanStep env spec st f).deletedResources.length +
          (cleanStep env spec st f).failedDeletions.length =
        st.deletedResources.length + st.failedDeletions.length + 1) := by
  refine ⟨?_, ?_, ?_⟩
  · intro env spec findings hne
    unfold Clean
    split
    · rfl
    · exact foldl_cleanStep_filter_mapped env spec hne findings (cleanBase spec)
  · intro env spec st f he
    unfold cleanStep
    rw [if_neg (by simp [he])]
    repeat' split
    all_goals simp
  · intro env spec st f he hage hpres
    unfold cleanStep
    rw [if_neg (by simp [he])]
    rw [if_neg (by simpa using hage)]
    rw [if_neg (by simp [hpres])]
    split
    · simp
      omega
    · split
      · simp
        omega
      · simp
        omega

/-! ### Webhook notifier: retry and cancellation (C3, C9) -/

theorem sendGo_succ (env : WebhookEnv) (d : Int) (fuel1 attempt : Nat) (lastErr : String) :
    sendGo env d (Nat.succ fuel1) attempt lastErr =
      if 0 < attempt ∧ env.cancelDuringWait attempt = true then
        { calls := 0, waits := [],
          outcome := .cancelled ("context cancelled during retry backoff: " ++ env.ctxErr) }
      else
        let w : List Int := if 0 < attempt then [backoffDelaySeconds d attempt] else []
        match env.attemptErr attempt with
        | none => { calls := 1, waits := w, outcome := .success }
        | some e =>
          let rest := sendGo env d fuel1 (attempt + 1) e
          { calls := 1 + rest.calls, waits := w ++ rest.waits, outcome := rest.outcome } :=
  rfl

theorem int64wrap_eq_self (n : Int) (h1 : -(2 ^ 63) ≤ n) (h2 : n < 2 ^ 63) :
    int64wrap n = n := by
  unfold int64wrap
  rw [Int.emod_eq_of_lt (by omega) (by omega)]
  omega

theorem backoffDelaySeconds_small (d : Int) (k : Nat)
    (hd0 : 0 ≤ d) (hd60 : d ≤ 60) (hk : k ≤ 9) :
    backoffDelaySeconds d (k + 1) = d * 2 ^ k := by
  have hpow0 : (0 : Int) ≤ 2 ^ k := by positivity
  have hpow : (2 : Int) ^ k ≤ 2 ^ 9 := pow_le_pow_right₀ (by norm_num) hk
  have hshl : goShlOne k = 2 ^ k := by
    unfold goShlOne
    exact int64wrap_eq_self _ (by omega) (by omega)
  have hprod0 : 0 ≤ d * 2 ^ k := mul_nonneg hd0 hpow0
  have hprod : d * 2 ^ k ≤ 60 * 2 ^ 9 := mul_le_mul hd60 hpow hpow0 (by norm_num)
  unfold backoffDelaySeconds
  rw [Nat.add_sub_cancel, hshl]
  exact int64wrap_eq_self _ (by omega) (by omega)

theorem sendGo_allFail (env : WebhookEnv) (d : Int) (e : Nat → String)
    (hfail : ∀ a, env.attemptErr a = some (e a))
    (hnc : ∀ a, env.cancelDuringWait a = false) :
    ∀ (fuel attempt : Nat) (lastErr : String), 1 ≤ attempt →
      sendGo env d fuel attempt lastErr =
        { calls := fuel,
          waits := (List.range fuel).map (fun i => backoffDelaySeconds d (attempt + i)),
          outcome := .allFailed (if fuel = 0 then lastErr else e (attempt + fuel - 1)) }
  | 0, attempt, lastErr, _ => by simp [sendGo]
  | Nat.succ fuel1, attempt, lastErr, h => by
    have hrest := sendGo_allFail env d e hfail hnc fuel1 (attempt + 1) (e attempt) (by omega)
    rw [sendGo_succ, if_neg (by simp [hnc attempt]), hfail attempt]
    simp only [hrest, if_pos (show 0 < attempt by omega), SendResult.mk.injEq]
    refine ⟨by omega, ?_, ?_⟩
    · rw [List.range_succ_eq_map, List.map_cons, List.map_map]
      simp only [List.singleton_append, Nat.add_zero, List.cons.injEq]
      refine ⟨trivial, List.map_congr_left (fun i _ => by
        simp only [Function.comp_apply]
        congr 1
        omega)⟩
    · cases fuel1 with
      | zero => simp
      | succ n =>
        simp only [Nat.succ_ne_zero, if_false]
        congr 2
        omega

theorem sendGo_cancelFirstAt (env : WebhookEnv) (d : Int) (e : Nat → String) (k : Nat)
    (hfail : ∀ j, j < k → env.attemptErr j = some (e j))
    (hnc : ∀ j, 1 ≤ j → j < k → env.cancelDuringWait j = false)
    (hc : env.cancelDuringWait k = true) :
    ∀ (fuel : Nat), ∀ (attempt : Nat) (lastErr : String),
      1 ≤ attempt → attempt ≤ k → k - attempt < fuel →
      sendGo env d fuel attempt lastErr =
        { calls := k - attempt,
          waits := (List.range (k - attempt)).map (fun i => backoffDelaySeconds d (attempt + i)),
          outcome := .cancelled ("context cancelled during retry backoff: " ++ env.ctxErr) } := by
  intro fuel
  induction fuel with
  | zero => intro attempt lastErr _ _ h3; omega
  | succ fuel1 ih =>
    intro attempt lastErr h1 h2 h3
    rcases Nat.lt_or_ge attempt k with hlt | hge
    · have hrest := ih (attempt + 1) (e attempt) (by omega) (by omega) (by omega)
      rw [sendGo_succ, if_neg (by simp [hnc attempt h1 hlt]), hfail attempt hlt]
      simp only [hrest, if_pos (show 0 < attempt by omega), SendResult.mk.injEq]
      refine ⟨by omega, ?_, trivial⟩
      have hka : k - attempt = (k - (attempt + 1)) + 1 := by omega
      rw [hka, List.range_succ_eq_map, List.map_cons, List.map_map]
      simp only [List.singleton_append, Nat.add_zero, List.cons.injEq]
      refine ⟨trivial, List.map_congr_left (fun i _ => by
        simp only [Function.comp_apply]
        congr 1
        omega)⟩
    · have hak : attempt = k := by omega
      subst hak
      rw [sendGo_succ, if_pos ⟨by omega, hc⟩]
      simp [Nat.sub_self]

theorem sendGo_firstAttemptFails (env : WebhookEnv) (d : Int) (fuel : Nat) (e0 lastErr : String)
    (h : env.attemptErr 0 = some e0) :
    sendGo env d (fuel + 1) 0 lastErr =
      { calls := 1 + (sendGo env d fuel 1 e0).calls,
        waits := (sendGo env d fuel 1 e0).waits,
        outcome := (sendGo env d fuel 1 e0).outcome } := by
  rw [sendGo_succ, if_neg (by simp), h]
  simp

/-- C3: with a retry policy carrying MaxRetries = r >= 0, when every
sendOnce attempt fails and no cancellation fires, Send performs exactly
r + 1 attempts and ends with the error of the last attempt wrapped into
its failure; within the CRD-validated ranges (MaxRetries <= 10,
1 <= InitialDelaySeconds <= 60, where Go int arithmetic cannot wrap)
the completed wait before retry attempt k is initialDelay * 2^(k-1)
seconds; with no retry policy configured the defaults are 3 retries and
1 second initial delay. -/
theorem webhook_retry_exhaustion (cfg : WebhookConfig) (p : RetryPolicy) (env : WebhookEnv)
    (e : Nat → String)
    (hp : cfg.RetryPolicy = some p) (hr0 : 0 ≤ p.MaxRetries)
    (hfail : ∀ a, env.attemptErr a = some (e a))
    (hnc : ∀ a, env.cancelDuringWait a = false) :
    (Send env cfg).calls = p.MaxRetries.toNat + 1 ∧
    (Send env cfg).outcome = .allFailed (e p.MaxRetries.toNat) ∧
    (p.MaxRetries ≤ 10 → 1 ≤ p.InitialDelaySeconds → p.InitialDelaySeconds ≤ 60 →
      (Send env cfg).waits =
        (List.range p.MaxRetries.toNat).map (fun k => p.InitialDelaySeconds * 2 ^ k)) ∧
    effectiveMaxRetries { cfg with RetryPolicy := none } = 3 ∧
    effectiveInitialDelay { cfg with RetryPolicy := none } = 1 := by
  have hmr : effectiveMaxRetries cfg = p.MaxRetries := by
    simp [effectiveMaxRetries, hp, hr0]
  have hsend : Send env cfg =
      { calls := 1 + p.MaxRetries.toNat,
        waits := (List.range p.MaxRetries.toNat).map
          (fun i => backoffDelaySeconds (effectiveInitialDelay cfg) (1 + i)),
        outcome := .allFailed (e p.MaxRetries.toNat) } := by
    unfold Send
    rw [hmr, sendGo_firstAttemptFails env (effectiveInitialDelay cfg) p.MaxRetries.toNat
      (e 0) "" (hfail 0)]
    rw [sendGo_allFail env (effectiveInitialDelay cfg) e hfail hnc p.MaxRetries.toNat 1 (e 0)
      (by omega)]
    simp only [SendResult.mk.injEq]
    refine ⟨trivial, trivial, ?_⟩
    cases hcase : p.MaxRetries.toNat with
    | zero => simp
    | succ n =>
      simp only [Nat.succ_ne_zero, if_false]
      congr 2
      omega
  refine ⟨by rw [hsend]; show 1 + p.MaxRetries.toNat = p.MaxRetries.toNat + 1; omega,
    by rw [hsend], ?_, rfl, rfl⟩
  intro h10 hd1 hd60
  have hdel : effectiveInitialDelay cfg = p.InitialDelaySeconds := by
    simp [effectiveInitialDelay, hp]
    omega
  rw [hsend]
  refine List.map_congr_left (fun i hi => ?_)
  have hi9 : i ≤ 9 := by
    have := List.mem_range.mp hi
    omega
  rw [show 1 + i = i + 1 by omega, hdel]
  exact backoffDelaySeconds_small p.InitialDelaySeconds i (by omega) hd60 hi9

/-- Concrete webhook oracle where every attempt fails and nothing is
cancelled. -/
def witWebhookEnvFail : WebhookEnv :=
  { attemptErr := fun _ => some "boom", cancelDuringWait := fun _ => false,
    ctxErr := "context canceled" }

/-- Concrete webhook config with MaxRetries 2 and 1-second delay. -/
def witWebhookCfg : WebhookConfig :=
  { URL := "https://hooks.example/scan", Method := "POST",
    RetryPolicy := some { MaxRetries := 2, InitialDelaySeconds := 1 } }

theorem webhook_retry_exhaustion_witness :
    (Send witWebhookEnvFail witWebhookCfg).calls = 3 ∧
    (Send witWebhookEnvFail witWebhookCfg).outcome = .allFailed "boom" ∧
    (Send witWebhookEnvFail witWebhookCfg).waits = [1, 2] := by
  have h := webhook_retry_exhaustion witWebhookCfg
    { MaxRetries := 2, InitialDelaySeconds := 1 } witWebhookEnvFail (fun _ => "boom")
    rfl (by decide) (fun _ => rfl) (fun _ => rfl)
  refine ⟨h.1, h.2.1, ?_⟩
  rw [h.2.2.1 (by decide) (by decide) (by decide)]
  decide

/-- C9: when the cancellation signal fires during the backoff wait
preceding retry attempt k (every earlier attempt having failed and no
earlier wait cancelled), Send returns at once with an error wrapping
the cancellation cause, has performed exactly the k earlier delivery
attempts and no more, and has completed only the k - 1 earlier waits:
the interrupted wait never completes. -/
theorem webhook_cancel_during_backoff (cfg : WebhookConfig) (env : WebhookEnv)
    (e : Nat → String) (k : Nat)
    (hk1 : 1 ≤ k) (hkr : (k : Int) ≤ effectiveMaxRetries cfg)
    (hfail : ∀ j, j < k → env.attemptErr j = some (e j))
    (hnc : ∀ j, 1 ≤ j → j < k → env.cancelDuringWait j = false)
    (hc : env.cancelDuringWait k = true) :
    (Send env cfg).outcome =
      .cancelled ("context cancelled during retry backoff: " ++ env.ctxErr) ∧
    (Send env cfg).calls = k ∧
    (Send env cfg).waits =
      (List.range (k - 1)).map
        (fun i => backoffDelaySeconds (effectiveInitialDelay cfg) (1 + i)) := by
  have hr0 : 0 ≤ effectiveMaxRetries cfg := by
    unfold effectiveMaxRetries
    split
    · split <;> omega
    · omega
  have hkr2 : k ≤ (effectiveMaxRetries cfg).toNat := by omega
  have hsend : Send env cfg =
      { calls := 1 + (k - 1),
        waits := (List.range (k - 1)).map
          (fun i => backoffDelaySeconds (effectiveInitialDelay cfg) (1 + i)),
        outcome := .cancelled ("context cancelled during retry backoff: " ++ env.ctxErr) } := by
    unfold Send
    rw [sendGo_firstAttemptFails env (effectiveInitialDelay cfg) (effectiveMaxRetries cfg).toNat
      (e 0) "" (hfail 0 (by omega))]
    rw [sendGo_cancelFirstAt env (effectiveInitialDelay cfg) e k hfail hnc hc
      (effectiveMaxRetries cfg).toNat 1 (e 0) (by omega) hk1 (by omega)]
  rw [hsend]
  refine ⟨rfl, by show 1 + (k - 1) = k; omega, rfl⟩

/-- Concrete webhook oracle whose cancellation signal fires during the
wait before retry attempt 2. -/
def witWebhookEnvCancel : WebhookEnv :=
  { attemptErr := fun _ => some "boom", cancelDuringWait := fun a => a == 2,
    ctxErr := "context canceled" }

theorem webhook_cancel_during_backoff_witness :
    (Send witWebhookEnvCancel witWebhookCfg).outcome =
      .cancelled ("context cancelled during retry backoff: " ++ "context canceled") ∧
    (Send witWebhookEnvCancel witWebhookCfg).calls = 2 ∧
    (Send witWebhookEnvCancel witWebhookCfg).waits = [1] := by
  have h := webhook_cancel_during_backoff witWebhookCfg witWebhookEnvCancel
    (fun _ => "boom") 2 (by decide) (by decide)
    (fun j _ => rfl) (fun j h1 h2 => by interval_cases j; rfl) rfl
  refine ⟨h.1, h.2.1, ?_⟩
  rw [h.2.2]
  decide

theorem clean_allowlist_unmapped_gate_witness :
    Clean witCleanupEnv [witRoleFinding]
        { witCleanupSpec with ResourceTypes := ["configmaps"] } =
      Clean witCleanupEnv []
        { witCleanupSpec with ResourceTypes := ["configmaps"] } ∧
    (cleanStep witCleanupEnv witCleanupSpec (cleanBase witCleanupSpec)
        witRoleFinding).summary.TotalEligible = 1 ∧
    (cleanStep witCleanupEnv witCleanupSpec (cleanBase witCleanupSpec)
        witRoleFinding).deletedResources.length +
      (cleanStep witCleanupEnv witCleanupSpec (cleanBase witCleanupSpec)
        witRoleFinding).failedDeletions.length = 1 := by
  have h := clean_allowlist_unmapped_gate
  refine ⟨?_, ?_, ?_⟩
  · have h1 := h.1 witCleanupEnv { witCleanupSpec with ResourceTypes := ["configmaps"] }
      [witRoleFinding] (by decide)
    simpa using h1
  · exact h.2.1 witCleanupEnv witCleanupSpec (cleanBase witCleanupSpec) witRoleFinding rfl
  · exact h.2.2 witCleanupEnv witCleanupSpec (cleanBase witCleanupSpec) witRoleFinding rfl
      (by decide) (by decide)

/-! ### Detection rules: Service and ConfigMap candidate conditions (C6, C7) -/

theorem foldl_append_filter {α β : Type _} (step : List β → α → List β) (c : α → Bool)
    (g : α → β) (hstep : ∀ ns x, step ns x = if c x then ns ++ [g x] else ns) :
    ∀ (l : List α) (acc : List β), l.foldl step acc = acc ++ (l.filter c).map g
  | [], acc => by simp
  | x :: rest, acc => by
    rw [List.foldl_cons, hstep acc x, List.filter_cons]
    by_cases h : c x
    · rw [if_pos h, if_pos h, foldl_append_filter step c g hstep rest (acc ++ [g x])]
      simp
    · rw [if_neg h, if_neg h, foldl_append_filter step c g hstep rest acc]

theorem foldl_addr_sum :
    ∀ (l : List K8s.EndpointSubset) (n : Nat),
      l.foldl (fun acc subset => acc + subset.Addresses.length + subset.NotReadyAddresses.length) n =
        n + (l.map (fun s => s.Addresses.length + s.NotReadyAddresses.length)).sum
  | [], n => by simp
  | s :: rest, n => by
    rw [List.foldl_cons, foldl_addr_sum rest _, List.map_cons, List.sum_cons]
    omega

theorem servicesWithoutEndpoints_eq_filter (services : List K8s.Service)
    (getEndpoints : String → String → Option K8s.Endpoints) :
    K8s.ServicesWithoutEndpoints services getEndpoints =
      (services.filter (svcNoEndpointsB getEndpoints)).map K8s.Service.Name := by
  unfold K8s.ServicesWithoutEndpoints
  refine (foldl_append_filter _ (svcNoEndpointsB getEndpoints) K8s.Service.Name ?_ services
    []).trans (by rw [List.nil_append])
  intro ns svc
  cases h : getEndpoints svc.Namespace svc.Name with
  | none => simp [svcNoEndpointsB, h]
  | some ep => simp [svcNoEndpointsB, h]

theorem svcNoEndpointsB_iff (getEndpoints : String → String → Option K8s.Endpoints)
    (svc : K8s.Service) :
    svcNoEndpointsB getEndpoints svc = true ↔ serviceHasNoEndpoints getEndpoints svc := by
  unfold svcNoEndpointsB serviceHasNoEndpoints
  cases h : getEndpoints svc.Namespace svc.Name with
  | none => simp [h]
  | some ep => simp [h, foldl_addr_sum]

/-- C6: a Service is reported as a NoEndpoints candidate iff its
same-named Endpoints object is missing (any Get failure included), or
it exists but the sum of ready plus not-ready addresses over all its
subsets is zero; no other condition produces or suppresses the
candidate. -/
theorem service_candidate_iff_no_endpoints (services : List K8s.Service)
    (getEndpoints : String → String → Option K8s.Endpoints) (name : String) :
    name ∈ K8s.ServicesWithoutEndpoints services getEndpoints ↔
      ∃ svc ∈ services, svc.Name = name ∧ serviceHasNoEndpoints getEndpoints svc := by
  rw [servicesWithoutEndpoints_eq_filter]
  simp only [List.mem_map, List.mem_filter]
  constructor
  · rintro ⟨svc, ⟨hmem, hcond⟩, rfl⟩
    exact ⟨svc, hmem, rfl, (svcNoEndpointsB_iff getEndpoints svc).mp hcond⟩
  · rintro ⟨svc, hmem, rfl, hcond⟩
    exact ⟨svc, ⟨hmem, (svcNoEndpointsB_iff getEndpoints svc).mpr hcond⟩, rfl⟩

theorem nameRefMatches_true_iff (r : Option K8s.NameRef) (name : String) :
    K8s.nameRefMatches r name = true ↔ ∃ ref, r = some ref ∧ ref.Name = name := by
  cases r <;> simp [K8s.nameRefMatches]

theorem projectedMatchesConfigMap_true_iff (p : Option K8s.ProjectedVolumeSource)
    (name : String) :
    K8s.projectedMatchesConfigMap p name = true ↔
      ∃ proj, p = some proj ∧
        ∃ src ∈ proj.Sources, ∃ r, src.ConfigMap = some r ∧ r.Name = name := by
  cases p <;> simp [K8s.projectedMatchesConfigMap, List.any_eq_true, nameRefMatches_true_iff]

theorem envVarMatchesConfigMap_true_iff (ev : K8s.EnvVar) (name : String) :
    K8s.envVarMatchesConfigMap ev name = true ↔
      ∃ vf, ev.ValueFrom = some vf ∧ ∃ r, vf.ConfigMapKeyRef = some r ∧ r.Name = name := by
  cases h : ev.ValueFrom <;> simp [K8s.envVarMatchesConfigMap, h, nameRefMatches_true_iff]

theorem isConfigMapUsedByPod_iff (pod : K8s.Pod) (name : String) :
    K8s.isConfigMapUsedByPod pod name = true ↔ podReferencesConfigMap pod name := by
  unfold K8s.isConfigMapUsedByPod podReferencesConfigMap containerRefsConfigMap
  simp only [Bool.or_eq_true, List.any_eq_true, List.any_append, List.mem_append, List.mem_map,
    nameRefMatches_true_iff, projectedMatchesConfigMap_true_iff, envVarMatchesConfigMap_true_iff]
  constructor
  · rintro (⟨vol, hvol, hd | hp⟩ | ((⟨c, hc, hr⟩ | ⟨c, hc, hr⟩) | ⟨x, ⟨a, ha, rfl⟩, hr⟩))
    · exact Or.inl ⟨vol, hvol, hd⟩
    · exact Or.inr (Or.inl ⟨vol, hvol, hp⟩)
    · exact Or.inr (Or.inr (Or.inl ⟨c, Or.inl hc, hr⟩))
    · exact Or.inr (Or.inr (Or.inl ⟨c, Or.inr hc, hr⟩))
    · exact Or.inr (Or.inr (Or.inr ⟨a, ha, hr⟩))
  · rintro (⟨vol, hvol, hd⟩ | ⟨vol, hvol, hp⟩ | ⟨c, hc | hc, hr⟩ | ⟨ec, hec, hr⟩)
    · exact Or.inl ⟨vol, hvol, Or.inl hd⟩
    · exact Or.inl ⟨vol, hvol, Or.inr hp⟩
    · exact Or.inr (Or.inl (Or.inl ⟨c, hc, hr⟩))
    · exact Or.inr (Or.inl (Or.inr ⟨c, hc, hr⟩))
    · exact Or.inr (Or.inr ⟨_, ⟨ec, hec, rfl⟩, hr⟩)

/-- C7 main filter form of the ConfigMap rule. -/
theorem orphanConfigMaps_eq_filter (cms : List K8s.ConfigMap) (pods : List K8s.Pod) :
    K8s.OrphanConfigMaps cms pods = (cms.filter (cmOrphanB pods)).map K8s.ConfigMap.Name := by
  unfold K8s.OrphanConfigMaps
  refine (foldl_append_filter _ (cmOrphanB pods) K8s.ConfigMap.Name ?_ cms []).trans
    (by rw [List.nil_append])
  intro ns cm
  by_cases h1 : cm.OwnerReferences.length > 0
  · have h0 : ¬ cm.OwnerReferences.length = 0 := by omega
    simp [cmOrphanB, h1, h0]
  · have h0 : cm.OwnerReferences.length = 0 := by omega
    by_cases h2 : pods.any (fun pod => K8s.isConfigMapUsedByPod pod cm.Name)
    · simp [cmOrphanB, h1, h0, h2]
    · simp [cmOrphanB, h1, h0, h2]

theorem cmOrphanB_iff (pods : List K8s.Pod) (cm : K8s.ConfigMap) :
    cmOrphanB pods cm = true ↔
      cm.OwnerReferences = [] ∧ ¬ ∃ pod ∈ pods, podReferencesConfigMap pod cm.Name := by
  unfold cmOrphanB
  simp [List.any_eq_true, List.length_eq_zero, isConfigMapUsedByPod_iff]

/-- C7: a ConfigMap is reported as an orphan candidate iff it has no
owner references and no pod in the namespace references it via a volume
configMap source, a projected-volume configMap source, a container
envFrom configMapRef, or a container env valueFrom configMapKeyRef,
across init, regular and ephemeral containers. -/
theorem configmap_candidate_iff_orphan (cms : List K8s.ConfigMap) (pods : List K8s.Pod)
    (name : String) :
    name ∈ K8s.OrphanConfigMaps cms pods ↔
      ∃ cm ∈ cms, cm.Name = name ∧ cm.OwnerReferences = [] ∧
        ¬ ∃ pod ∈ pods, podReferencesConfigMap pod cm.Name := by
  rw [orphanConfigMaps_eq_filter]
  simp only [List.mem_map, List.mem_filter]
  constructor
  · rintro ⟨cm, ⟨hmem, hcond⟩, rfl⟩
    have h := (cmOrphanB_iff pods cm).mp hcond
    exact ⟨cm, hmem, rfl, h.1, h.2⟩
  · rintro ⟨cm, hmem, rfl, h1, h2⟩
    exact ⟨cm, ⟨hmem, (cmOrphanB_iff pods cm).mpr ⟨h1, h2⟩⟩, rfl⟩

/-! ### Scan orchestrator and reconciliation loop (C4, C5, C8) -/

theorem except_bind_error {ε α β : Type _} (e : ε) (f : α → Except ε β) :
    (Except.error e >>= f : Except ε β) = Except.error e := rfl

theorem scan_ok_totalResources (env : ScanEnv) (spec : KorpScanSpec) (now : Int) (r : ScanResult)
    (h : Scan env spec now = .ok r) :
    r.Summary.TotalResources = r.Details.length := by
  unfold Scan at h
  split at h
  · cases h
  · split at h
    · cases h
    · split at h
      · cases h
      · injection h with h
        subst h
        rfl

theorem reconcile_completed (env : ScanEnv) (ks : KorpScan) (now : Int) (duration : String)
    (r : ScanResult) (hdue : scanDue ks now = true) (hscan : Scan env ks.Spec now = .ok r) :
    Reconcile env ks now duration =
      { korpScan :=
          { ks with Status :=
            { LastScanTime := some now,
              Phase := "Completed",
              Summary := { r.Summary with OrphanCount := TotalOrphans r.Summary },
              Findings := r.Details,
              History := nextHistory ks.Spec ks.Status.History
                { ScanTime := now, OrphanCount := TotalOrphans r.Summary,
                  Duration := duration } } },
        requeueAfterSeconds := effectiveIntervalSeconds ks.Spec, err := none } := by
  unfold Reconcile reconcileScan
  cases hlst : ks.Status.LastScanTime with
  | none => rw [hscan]
  | some t =>
    unfold scanDue at hdue
    rw [hlst] at hdue
    dsimp only
    rw [if_neg (by simpa using hdue), hscan]

theorem reconcile_failed (env : ScanEnv) (ks : KorpScan) (now : Int) (duration : String)
    (e : String) (hdue : scanDue ks now = true) (hscan : Scan env ks.Spec now = .error e) :
    Reconcile env ks now duration =
      { korpScan := { ks with Status := { ks.Status with Phase := "Failed" } },
        requeueAfterSeconds := effectiveIntervalSeconds ks.Spec, err := some e } := by
  unfold Reconcile reconcileScan
  cases hlst : ks.Status.LastScanTime with
  | none => rw [hscan]
  | some t =>
    unfold scanDue at hdue
    rw [hlst] at hdue
    dsimp only
    rw [if_neg (by simpa using hdue), hscan]

theorem reconcile_spec_eq (env : ScanEnv) (ks : KorpScan) (now : Int) (duration : String) :
    (Reconcile env ks now duration).korpScan.Spec = ks.Spec := by
  unfold Reconcile reconcileScan
  dsimp only
  repeat' split
  all_goals rfl

/-- C4: after every completed scan pass (the scan was due and
succeeded), the published status has TotalResources equal to the length
of the Findings list, and its cluster-wide OrphanCount equal to the
arithmetic sum of all per-kind counters of the published ScanSummary. -/
theorem scan_totals_published (env : ScanEnv) (ks : KorpScan) (now : Int) (duration : String)
    (r : ScanResult) (hdue : scanDue ks now = true) (hscan : Scan env ks.Spec now = .ok r) :
    (Reconcile env ks now duration).korpScan.Status.Summary.TotalResources =
      (Reconcile env ks now duration).korpScan.Status.Findings.length ∧
    (Reconcile env ks now duration).korpScan.Status.Summary.OrphanCount =
      perKindCounterSum (Reconcile env ks now duration).korpScan.Status.Summary := by
  rw [reconcile_completed env ks now duration r hdue hscan]
  exact ⟨scan_ok_totalResources env ks.Spec now r hscan, rfl⟩

/-- Trivial concrete scan oracle for witnesses: one namespace target,
every rule reporting a single orphan name, no filters tripped. -/
def witScanEnv : ScanEnv :=
  { listNamespaces := .ok ["default"],
    rule := fun _ _ => .ok ["a"],
    clusterRule := fun _ => .ok ["b"],
    regexMatch := fun _ _ => some false }

/-- Concrete KorpScan object for witnesses: single namespace, default
kinds, history limit 1, minute interval, no prior status. -/
def witKorpScan : KorpScan :=
  { Spec :=
      { TargetNamespace := "default"
        IntervalMinutes := 1
        ResourceTypes := []
        Filters := {}
        Reporting :=
          { CreateEvents := true
            EventSeverity := "Warning"
            HistoryLimit := 1
            Webhook := none }
        Cleanup := none } }

theorem scan_totals_published_witness :
    (Reconcile witScanEnv witKorpScan 0 "1s").korpScan.Status.Summary.TotalResources =
      (Reconcile witScanEnv witKorpScan 0 "1s").korpScan.Status.Findings.length ∧
    (Reconcile witScanEnv witKorpScan 0 "1s").korpScan.Status.Summary.OrphanCount =
      perKindCounterSum (Reconcile witScanEnv witKorpScan 0 "1s").korpScan.Status.Summary := by
  obtain ⟨r, hr⟩ : ∃ r, Scan witScanEnv witKorpScan.Spec 0 = .ok r := ⟨_, rfl⟩
  exact scan_totals_published witScanEnv witKorpScan 0 "1s" r rfl hr

theorem foldlM_ok_of_mem {ε α β : Type _} (f : β → α → Except ε β) :
    ∀ (l : List α) (b c : β), l.foldlM f b = .ok c → ∀ x ∈ l, ∃ b2 c2, f b2 x = .ok c2
  | [], _, _, _, x, hx => absurd hx (List.not_mem_nil x)
  | a :: rest, b, c, h, x, hx => by
    rw [List.foldlM_cons] at h
    cases hfa : f b a with
    | error e =>
      rw [hfa, except_bind_error] at h
      cases h
    | ok b2 =>
      rw [hfa] at h
      rcases List.mem_cons.mp hx with rfl | hx2
      · exact ⟨b, b2, hfa⟩
      · exact foldlM_ok_of_mem f rest b2 c (by simpa using h) x hx2

theorem scanKindStep_ok (env : ScanEnv) (ns : String) (spec : KorpScanSpec) (res : ScanResult)
    (now : Int) (ruleKey resourceType reason : String)
    (setCounter : ScanSummary → Nat → ScanSummary) (r : ScanResult)
    (h : scanKindStep env ns spec res now ruleKey resourceType reason setCounter = .ok r) :
    ∃ names, env.rule ruleKey ns = .ok names := by
  unfold scanKindStep at h
  cases hr : env.rule ruleKey ns with
  | error e => rw [hr] at h; simp at h
  | ok names => exact ⟨names, rfl⟩

theorem scanClusterKindStep_ok (env : ScanEnv) (spec : KorpScanSpec) (res : ScanResult)
    (now : Int) (ruleKey resourceType reason : String)
    (setCounter : ScanSummary → Nat → ScanSummary) (r : ScanResult)
    (h : scanClusterKindStep env spec res now ruleKey resourceType reason setCounter = .ok r) :
    ∃ names, env.clusterRule ruleKey = .ok names := by
  unfold scanClusterKindStep at h
  cases hr : env.clusterRule ruleKey with
  | error e => rw [hr] at h; simp at h
  | ok names => exact ⟨names, rfl⟩

theorem scanNamespace_ok_rule (env : ScanEnv) (ns : String) (types : List String)
    (spec : KorpScanSpec) (res r : ScanResult) (now : Int)
    (h : scanNamespace env ns types spec res now = .ok r) :
    ∀ rt ∈ types, rt ∈ namespacedScanKinds → ∃ names, env.rule rt ns = .ok names := by
  intro rt hrt hkind
  obtain ⟨acc, acc2, hstep⟩ := foldlM_ok_of_mem _ types res r h rt hrt
  simp only [namespacedScanKinds, List.mem_cons, List.not_mem_nil, or_false] at hkind
  rcases hkind with rfl|rfl|rfl|rfl|rfl|rfl|rfl|rfl|rfl|rfl|rfl|rfl|rfl|rfl|rfl|rfl|rfl
  all_goals exact scanKindStep_ok _ _ _ _ _ _ _ _ _ _ hstep

theorem scanClusterScoped_ok_rule (env : ScanEnv) (types : List String) (spec : KorpScanSpec)
    (res r : ScanResult) (now : Int)
    (h : scanClusterScopedResources env types spec res now = .ok r) :
    ∀ rt ∈ types, rt ∈ clusterScanKinds → ∃ names, env.clusterRule rt = .ok names := by
  intro rt hrt hkind
  obtain ⟨acc, acc2, hstep⟩ := foldlM_ok_of_mem _ types res r h rt hrt
  simp only [clusterScanKinds, List.mem_cons, List.not_mem_nil, or_false] at hkind
  rcases hkind with rfl|rfl
  all_goals exact scanClusterKindStep_ok _ _ _ _ _ _ _ _ _ hstep

theorem scan_ok_rules (env : ScanEnv) (spec : KorpScanSpec) (now : Int) (r : ScanResult)
    (nss : List String) (h : Scan env spec now = .ok r)
    (hnss : getNamespacesToScan env spec = .ok nss) :
    (∀ ns ∈ nss, ∀ rt ∈ effectiveScanTypes spec, rt ∈ namespacedScanKinds →
      ∃ names, env.rule rt ns = .ok names) ∧
    (∀ rt ∈ effectiveScanTypes spec, rt ∈ clusterScanKinds →
      ∃ names, env.clusterRule rt = .ok names) := by
  unfold Scan at h
  rw [hnss] at h
  dsimp only at h
  cases hf : nss.foldlM
      (fun acc ns => scanNamespace env ns (effectiveScanTypes spec) spec acc now)
      ({} : ScanResult) with
  | error e => rw [hf] at h; simp at h
  | ok r1 =>
    rw [hf] at h
    dsimp only at h
    cases hc : scanClusterScopedResources env (effectiveScanTypes spec) spec r1 now with
    | error e => rw [hc] at h; simp at h
    | ok r2 =>
      constructor
      · intro ns hns rt hrt hkind
        obtain ⟨acc, acc2, hstep⟩ := foldlM_ok_of_mem _ nss {} r1 hf ns hns
        exact scanNamespace_ok_rule env ns _ spec acc acc2 now hstep rt hrt hkind
      · intro rt hrt hkind
        exact scanClusterScoped_ok_rule env _ spec r1 r2 now hc rt hrt hkind

/-- C8: a failure of an underlying list or get call aborts the whole
pass. Namespace-enumeration failure surfaces as the error of Scan; if
any single invoked per-kind rule fails — a recognized namespace-scoped
kind against any scanned namespace, or a recognized cluster-scoped
kind, the other rules free to succeed — Scan returns an error (the
first failure encountered), and no partial ScanResult exists in either
case (the error carries no result by type). On a failed scan the
reconciler sets phase Failed, requeues after the full interval,
surfaces the error, and leaves findings, summary and history
untouched. -/
theorem scan_failure_aborts :
    (∀ (env : ScanEnv) (spec : KorpScanSpec) (now : Int) (e : String),
      spec.TargetNamespace = "*" → env.listNamespaces = .error e →
      Scan env spec now = .error e) ∧
    (∀ (env : ScanEnv) (spec : KorpScanSpec) (now : Int) (nss : List String)
        (rt ns e : String),
      getNamespacesToScan env spec = .ok nss → rt ∈ effectiveScanTypes spec →
      ((rt ∈ namespacedScanKinds ∧ ns ∈ nss ∧ env.rule rt ns = .error e) ∨
        (rt ∈ clusterScanKinds ∧ env.clusterRule rt = .error e)) →
      ∃ e2, Scan env spec now = .error e2) ∧
    (∀ (env : ScanEnv) (ks : KorpScan) (now : Int) (duration : String) (e : String),
      scanDue ks now = true → Scan env ks.Spec now = .error e →
      (Reconcile env ks now duration).err = some e ∧
      (Reconcile env ks now duration).korpScan.Status.Phase = "Failed" ∧
      (Reconcile env ks now duration).requeueAfterSeconds = effectiveIntervalSeconds ks.Spec ∧
      (Reconcile env ks now duration).korpScan.Status.Findings = ks.Status.Findings ∧
      (Reconcile env ks now duration).korpScan.Status.Summary = ks.Status.Summary ∧
      (Reconcile env ks now duration).korpScan.Status.History = ks.Status.History) := by
  refine ⟨?_, ?_, ?_⟩
  · intro env spec now e htarget hlist
    unfold Scan getNamespacesToScan
    rw [if_neg (by simp [htarget]), hlist]
  · intro env spec now nss rt ns e hnss hrt hfail
    cases hscan : Scan env spec now with
    | error e2 => exact ⟨e2, rfl⟩
    | ok r =>
      exfalso
      have hok := scan_ok_rules env spec now r nss hscan hnss
      rcases hfail with ⟨hkind, hns, herr⟩ | ⟨hkind, herr⟩
      · obtain ⟨names, hnames⟩ := hok.1 ns hns rt hrt hkind
        rw [herr] at hnames
        cases hnames
      · obtain ⟨names, hnames⟩ := hok.2 rt hrt hkind
        rw [herr] at hnames
        cases hnames
  · intro env ks now duration e hdue hscan
    rw [reconcile_failed env ks now duration e hdue hscan]
    exact ⟨rfl, rfl, rfl, rfl, rfl, rfl⟩

/-- Concrete scan oracle where exactly one rule (services) fails and
every other rule succeeds. -/
def witScanEnvMixed : ScanEnv :=
  { listNamespaces := .ok ["default"],
    rule := fun k _ => if k = "services" then .error "services list refused" else .ok ["a"],
    clusterRule := fun _ => .ok ["b"],
    regexMatch := fun _ _ => some false }

theorem nextHistory_eq_take (spec : KorpScanSpec) (old : List HistoryEntry)
    (entry : HistoryEntry) (h : 0 ≤ effectiveHistoryLimit spec) :
    nextHistory spec old entry = (entry :: old).take (effectiveHistoryLimit spec).toNat := by
  unfold nextHistory
  dsimp only
  split
  · rfl
  · next hle => exact (List.take_of_length_le (by simp at hle ⊢; omega)).symm

theorem effectiveHistoryLimit_pos (spec : KorpScanSpec) (h : 0 ≤ spec.Reporting.HistoryLimit) :
    1 ≤ (effectiveHistoryLimit spec).toNat := by
  unfold effectiveHistoryLimit
  split <;> omega

theorem runReconciles_history :
    ∀ (inputs : List PassInput) (ks : KorpScan),
      0 ≤ ks.Spec.Reporting.HistoryLimit → passesComplete ks inputs → inputs ≠ [] →
      (runReconciles ks inputs).Status.History.length =
        min (inputs.length + ks.Status.History.length) (effectiveHistoryLimit ks.Spec).toNat ∧
      (1 ≤ (effectiveHistoryLimit ks.Spec).toNat →
        ∃ p cnt, inputs.getLast? = some p ∧
          (runReconciles ks inputs).Status.History.head? =
            some { ScanTime := p.now, OrphanCount := cnt, Duration := p.duration })
  | [], _, _, _, hne => absurd rfl hne
  | [p], ks, hlim, hcomp, _ => by
    obtain ⟨hdue, hok, -⟩ := hcomp
    obtain ⟨r, hscan⟩ : ∃ r, Scan p.env ks.Spec p.now = .ok r := by
      cases hs : Scan p.env ks.Spec p.now with
      | error e => rw [hs] at hok; cases hok
      | ok r => exact ⟨r, rfl⟩
    have hstep := reconcile_completed p.env ks p.now p.duration r hdue hscan
    have hN := nextHistory_eq_take ks.Spec ks.Status.History
      { ScanTime := p.now, OrphanCount := TotalOrphans r.Summary, Duration := p.duration }
      (by unfold effectiveHistoryLimit; split <;> omega)
    have hhist : (runReconciles ks [p]).Status.History =
        ({ ScanTime := p.now, OrphanCount := TotalOrphans r.Summary, Duration := p.duration :
            HistoryEntry } :: ks.Status.History).take (effectiveHistoryLimit ks.Spec).toNat := by
      show (Reconcile p.env ks p.now p.duration).korpScan.Status.History = _
      rw [hstep]
      exact hN
    constructor
    · rw [hhist]
      simp only [List.length_take, List.length_cons, List.length_singleton, List.length_nil]
      omega
    · intro hN1
      refine ⟨p, TotalOrphans r.Summary, rfl, ?_⟩
      rw [hhist]
      cases htn : (effectiveHistoryLimit ks.Spec).toNat with
      | zero => omega
      | succ m => rw [List.take_succ_cons, List.head?_cons]
  | p :: q :: qs, ks, hlim, hcomp, _ => by
    obtain ⟨hdue, hok, hrest⟩ := hcomp
    obtain ⟨r, hscan⟩ : ∃ r, Scan p.env ks.Spec p.now = .ok r := by
      cases hs : Scan p.env ks.Spec p.now with
      | error e => rw [hs] at hok; cases hok
      | ok r => exact ⟨r, rfl⟩
    have hstep := reconcile_completed p.env ks p.now p.duration r hdue hscan
    have hspec := reconcile_spec_eq p.env ks p.now p.duration
    have ih := runReconciles_history (q :: qs) (Reconcile p.env ks p.now p.duration).korpScan
      (by rw [hspec]; exact hlim) hrest (by simp)
    rw [hspec] at ih
    have hhist : (Reconcile p.env ks p.now p.duration).korpScan.Status.History =
        ({ ScanTime := p.now, OrphanCount := TotalOrphans r.Summary, Duration := p.duration :
            HistoryEntry } :: ks.Status.History).take (effectiveHistoryLimit ks.Spec).toNat := by
      rw [hstep]
      exact nextHistory_eq_take ks.Spec ks.Status.History _
        (by unfold effectiveHistoryLimit; split <;> omega)
    constructor
    · have h1 := ih.1
      rw [hhist] at h1
      simp only [List.length_take, List.length_cons] at h1
      show (runReconciles (Reconcile p.env ks p.now p.duration).korpScan
        (q :: qs)).Status.History.length = _
      rw [h1]
      simp only [List.length_cons]
      omega
    · intro hN1
      obtain ⟨pl, cnt, hlast, hhead⟩ := ih.2 hN1
      exact ⟨pl, cnt, by rw [List.getLast?_cons_cons]; exact hlast, hhead⟩

/-- C5: each completed reconciliation pass (due and with a successful
scan) prepends exactly one HistoryEntry and truncates the sequence to
the retention limit N (HistoryLimit, 5 when it is zero); hence after
more than N completed passes the history has length exactly N and its
first element is the entry stamped by the most recent pass. -/
theorem history_retention (ks : KorpScan) (inputs : List PassInput)
    (hlim : 0 ≤ ks.Spec.Reporting.HistoryLimit)
    (hcomp : passesComplete ks inputs)
    (hk : (effectiveHistoryLimit ks.Spec).toNat < inputs.length) :
    (∀ (env : ScanEnv) (ks2 : KorpScan) (now : Int) (duration : String) (r : ScanResult),
      0 ≤ ks2.Spec.Reporting.HistoryLimit →
      scanDue ks2 now = true → Scan env ks2.Spec now = .ok r →
      (Reconcile env ks2 now duration).korpScan.Status.History =
        ({ ScanTime := now, OrphanCount := TotalOrphans r.Summary, Duration := duration :
            HistoryEntry } :: ks2.Status.History).take (effectiveHistoryLimit ks2.Spec).toNat) ∧
    (runReconciles ks inputs).Status.History.length = (effectiveHistoryLimit ks.Spec).toNat ∧
    (∃ p cnt, inputs.getLast? = some p ∧
      (runReconciles ks inputs).Status.History.head? =
        some { ScanTime := p.now, OrphanCount := cnt, Duration := p.duration }) := by
  have hN1 := effectiveHistoryLimit_pos ks.Spec hlim
  have hne : inputs ≠ [] := by
    intro h
    rw [h] at hk
    simp at hk
  have hrun := runReconciles_history inputs ks hlim hcomp hne
  refine ⟨?_, ?_, hrun.2 hN1⟩
  · intro env ks2 now duration r hlim2 hdue hscan
    rw [reconcile_completed env ks2 now duration r hdue hscan]
    exact nextHistory_eq_take ks2.Spec ks2.Status.History _
      (by unfold effectiveHistoryLimit; split <;> omega)
  · rw [hrun.1]
    omega

/-- First concrete reconciler invocation for witnesses. -/
def witPass1 : PassInput := { env := witScanEnv, now := 0, duration := "1s" }

/-- Second concrete reconciler invocation, past the 60-second interval. -/
def witPass2 : PassInput := { env := witScanEnv, now := 100, duration := "2s" }

theorem history_retention_witness :
    (runReconciles witKorpScan [witPass1, witPass2]).Status.History.length =
      (effectiveHistoryLimit witKorpScan.Spec).toNat ∧
    ∃ p cnt, [witPass1, witPass2].getLast? = some p ∧
      (runReconciles witKorpScan [witPass1, witPass2]).Status.History.head? =
        some { ScanTime := p.now, OrphanCount := cnt, Duration := p.duration } := by
  have h := history_retention witKorpScan [witPass1, witPass2] (by decide)
    ⟨by decide, by decide, by decide, by decide, trivial⟩ (by decide)
  exact ⟨h.2.1, h.2.2⟩

theorem scan_failure_aborts_witness :
    (∃ e2, Scan witScanEnvMixed witKorpScan.Spec 0 = .error e2) ∧
    (Reconcile witScanEnvMixed witKorpScan 0 "1s").korpScan.Status.Phase = "Failed" ∧
    (Reconcile witScanEnvMixed witKorpScan 0 "1s").requeueAfterSeconds =
      effectiveIntervalSeconds witKorpScan.Spec ∧
    (Reconcile witScanEnvMixed witKorpScan 0 "1s").korpScan.Status.History =
      witKorpScan.Status.History := by
  have h := scan_failure_aborts
  have hex := h.2.1 witScanEnvMixed witKorpScan.Spec 0 ["default"] "services" "default"
    "services list refused" rfl (by decide) (Or.inl ⟨by decide, by decide, rfl⟩)
  have hscan : Scan witScanEnvMixed witKorpScan.Spec 0 = .error "services list refused" := rfl
  have hrec := h.2.2 witScanEnvMixed witKorpScan 0 "1s" "services list refused" rfl hscan
  exact ⟨hex, hrec.2.1, hrec.2.2.1, hrec.2.2.2.2.2⟩

end Korp
